import Mathlib

/-!
Verification development for the mmg-microbus repository.

The definitions below are a shallow embedding of the Rust sources:
  * `Microbus.Bus`    embeds `src/bus.rs` (`BusHandle::subscribe`,
    `BusHandle::subscribe_pattern`, `BusHandle::publish`, `pause`, `resume`).
  * `Microbus.AppM`   embeds `src/app.rs` (`App::start`, `App::config`, `App::stop`).
  * `Microbus.Adapter` embeds `microbus-macros/src/codegen/emit_ret.rs`
    (`gen_ret_case_tokens`) and the call sites in `emit_run.rs`,
    `emit_handles.rs`, `emit_actives.rs`.
  * `Microbus.Run`    embeds the phase ordering of the generated
    `Component::run` body from `emit_run.rs::gen_component_run`.
  * `Microbus.Cfg`    embeds `src/component.rs::ConfigStore`.

Rust runtime type identities (`TypeId`, `KindId`) are modelled as natural
numbers; `mpsc::Sender` is modelled by an identifier plus its observable
`is_closed` flag; a publish is modelled by the trace of send operations it
performs, each tagged blocking/non-blocking and whether the refcounted
payload was cloned or moved into the send.
-/

namespace Microbus

/-- Runtime type identity (`std::any::TypeId`). -/
abbrev TypeId := Nat

/-- `bus.rs::ComponentId` — a newtype over `String`. -/
abbrev ComponentId := String

/-- `bus.rs::KindId` — the `TypeId` of a component type. -/
abbrev KindId := Nat

/-- `bus.rs::ServiceAddr`: service kind plus instance id. -/
structure ServiceAddr where
  service : KindId
  inst : ComponentId
deriving DecidableEq

/-- `bus.rs::ServicePattern`: optional service and instance filters. -/
structure ServicePattern where
  service : Option KindId
  inst : Option ComponentId
deriving DecidableEq

/-- `ServicePattern::matches`: each present field must equal the address field. -/
def ServicePattern.matchesAddr (p : ServicePattern) (a : ServiceAddr) : Bool :=
  (match p.service with
   | some s => decide (s = a.service)
   | none => true)
  && (match p.inst with
      | some i => decide (i = a.inst)
      | none => true)

/-- One `mpsc::Sender` end: identifier of the channel plus its
`is_closed()` observation. -/
structure Sender where
  sid : Nat
  closed : Bool
deriving DecidableEq

/-- Association-list lookup (embeds `HashMap::get`). -/
def alookup {α β : Type} [DecidableEq α] : List (α × β) → α → Option β
  | [], _ => none
  | (k, v) :: rest, a => if k = a then some v else alookup rest a

/-- Association-list insert/replace (embeds `HashMap::entry(..).or_insert` /
in-place update of the entry). -/
def aupdate {α β : Type} [DecidableEq α] : List (α × β) → α → β → List (α × β)
  | [], a, b => [(a, b)]
  | (k, v) :: rest, a, b =>
    if k = a then (k, b) :: rest else (k, v) :: aupdate rest a b

/-- Association-list remove (embeds `HashMap::remove`). -/
def aremove {α β : Type} [DecidableEq α] : List (α × β) → α → List (α × β)
  | [], _ => []
  | (k, v) :: rest, a => if k = a then rest else (k, v) :: aremove rest a

/-- The type-erased content of one `Box<dyn Any>` holding a `Topic<T>`:
the runtime type `T` it was built for, and its sender list. A
`downcast_ref::<Topic<U>>` on it succeeds iff `actualTy = U`. -/
structure TopicEntry where
  actualTy : TypeId
  txs : List Sender
deriving DecidableEq

/-- The type-erased content of one `PatternTopic<T>` box. -/
structure PatternEntry where
  actualTy : TypeId
  pat : ServicePattern
  txs : List Sender
deriving DecidableEq

/-- Per-address map from message `TypeId` to the erased `Topic` box
(`bus.rs::TopicMap`). -/
abbrev TopicMap := List (TypeId × TopicEntry)

/-- `bus.rs::BusInner`: the whole mutable state of the bus.  There is no
sealed flag and no snapshot field in the source; the only global mode bit
is `paused`.  `nextSid` models the allocator of fresh channel ids. -/
structure BusInner where
  topics : List (ServiceAddr × TopicMap)
  patterns : List (TypeId × List PatternEntry)
  defaultCapacity : Nat
  paused : Bool
  nextSid : Nat
deriving DecidableEq

/-- `Bus::new(default_capacity)`. -/
def BusInner.new (cap : Nat) : BusInner :=
  { topics := [], patterns := [], defaultCapacity := cap, paused := false, nextSid := 0 }

/-- `BusHandle::pause`: store `true` into the paused flag. -/
def BusInner.pause (s : BusInner) : BusInner := { s with paused := true }

/-- Observable wake events. -/
inductive WakeEvent
  | notifyWaiters
deriving DecidableEq

/-- `BusHandle::resume`: clear the paused flag, then `notify_waiters`. -/
def BusInner.resume (s : BusInner) : BusInner × List WakeEvent :=
  ({ s with paused := false }, [WakeEvent.notifyWaiters])

/-- Result of `BusHandle::subscribe` / `subscribe_pattern`.  `live = false`
is the error path of `subscribe` that logs and hands back a subscription
whose sender end was already dropped (it only ever receives `None`). -/
structure SubOut where
  next : BusInner
  live : Bool
  sid : Nat
  logged : Bool
deriving DecidableEq

/-- `BusHandle::subscribe::<T>(from)` from `bus.rs` lines 206-230:
take the write lock, `entry(from).or_insert` the typed map, `entry(T)`
`.or_insert` a fresh `Topic<T>`, downcast it; on downcast failure log an
error and return a dead subscription; otherwise push a fresh sender. -/
def BusInner.subscribe (s : BusInner) (T : TypeId) (src : ServiceAddr) : SubOut :=
  let tm := (alookup s.topics src).getD []
  match alookup tm T with
  | some e =>
    if e.actualTy = T then
      let e' : TopicEntry := { e with txs := e.txs ++ [⟨s.nextSid, false⟩] }
      let s' := { s with topics := aupdate s.topics src (aupdate tm T e'), nextSid := s.nextSid + 1 }
      { next := s', live := true, sid := s.nextSid, logged := false }
    else
      { next := { s with nextSid := s.nextSid + 1 }, live := false, sid := s.nextSid, logged := true }
  | none =>
    let e' : TopicEntry := ⟨T, [⟨s.nextSid, false⟩]⟩
    let s' := { s with topics := aupdate s.topics src (aupdate tm T e'), nextSid := s.nextSid + 1 }
    { next := s', live := true, sid := s.nextSid, logged := false }

/-- `BusHandle::subscribe_pattern::<T>(pattern)` from `bus.rs` lines 231-245:
append a fresh single-sender `PatternTopic<T>` box to the list at key `T`. -/
def BusInner.subscribePattern (s : BusInner) (T : TypeId) (p : ServicePattern) : SubOut :=
  let l := (alookup s.patterns T).getD []
  let s' := { s with patterns := aupdate s.patterns T (l ++ [⟨T, p, [⟨s.nextSid, false⟩]⟩]), nextSid := s.nextSid + 1 }
  { next := s', live := true, sid := s.nextSid, logged := false }

/-- Whether the payload refcount was cloned for this send or moved into it. -/
inductive SendMode
  | cloned
  | moved
deriving DecidableEq

/-- One observable step of a publish call. -/
inductive SendEvent
  | trySend (sid : Nat)
  | blockingSend (sid : Nat) (mode : SendMode)
  | logTypeMismatch
deriving DecidableEq

def SendEvent.isTry : SendEvent → Bool
  | .trySend _ => true
  | _ => false

/-- Outcome of `BusHandle::publish`.  `blocked` is a publish that entered the
pause wait loop and has not yet proceeded (nothing computed, nothing sent,
nothing dropped); `panicked` is the `panic!` on a pattern-list downcast
mismatch; `done` carries the trace of sends and the state after lazy
cleanup. -/
inductive PublishResult
  | blocked
  | panicked
  | done (trace : List SendEvent) (next : BusInner)
deriving DecidableEq

def Sender.isOpen (t : Sender) : Bool := !t.closed

/-- The send sequence of `publish` over the open recipients (`bus.rs`
366-380): a blocking `send(arc.clone()).await` for each of
`recipients[0 .. total-1]` and a final blocking send that moves `arc`
into `recipients[total-1]` — no non-blocking attempt anywhere. -/
def sendSeq (l : List Sender) : List SendEvent :=
  match l.getLast? with
  | none => []
  | some last =>
    l.dropLast.map (fun t => .blockingSend t.sid .cloned) ++ [.blockingSend last.sid .moved]

/-- The exact-topic senders `senders_exact` of `publish` (`bus.rs` 267-283):
`some txs` when the entry at `(from, T)` exists and downcasts, `none`
otherwise; the flag records whether a type-mismatch error was logged. -/
def exactSenders (s : BusInner) (T : TypeId) (src : ServiceAddr) :
    Option (List Sender) × Bool :=
  match alookup s.topics src with
  | none => (none, false)
  | some tm =>
    match alookup tm T with
    | none => (none, false)
    | some e => if e.actualTy = T then (some e.txs, false) else (none, true)

/-- The matched pattern senders `senders_patterns` (`bus.rs` 284-300), or
`none` when some entry in the list fails to downcast (the source
`panic!`s there). -/
def patternSenders (s : BusInner) (T : TypeId) (src : ServiceAddr) :
    Option (List Sender) :=
  match alookup s.patterns T with
  | none => some []
  | some l =>
    if l.all (fun e => e.actualTy = T) then
      some ((l.filter (fun e => e.pat.matchesAddr src)).flatMap (fun e => e.txs))
    else none

/-- Lazy cleanup of the exact topic entry after publish (`bus.rs` 403-426):
retain open senders at `(from, T)`, drop the type entry when it became
empty, drop the address entry when its map became empty. -/
def cleanTopics (topics : List (ServiceAddr × TopicMap)) (T : TypeId)
    (src : ServiceAddr) : List (ServiceAddr × TopicMap) :=
  match alookup topics src with
  | none => topics
  | some tm =>
    let tm' :=
      match alookup tm T with
      | none => tm
      | some e =>
        if e.actualTy = T then
          let kept := e.txs.filter Sender.isOpen
          if kept = [] then aremove tm T
          else aupdate tm T { e with txs := kept }
        else tm
    if tm' = [] then aremove topics src else aupdate topics src tm'

/-- Lazy cleanup of the pattern list after publish (`bus.rs` 427-452):
retain open senders in each entry that downcasts, drop entries that became
empty or failed to downcast, drop the key when the list became empty. -/
def cleanPatterns (patterns : List (TypeId × List PatternEntry)) (T : TypeId) :
    List (TypeId × List PatternEntry) :=
  match alookup patterns T with
  | none => patterns
  | some l =>
    let l' := (l.filterMap (fun e =>
      if e.actualTy = T then
        let kept := e.txs.filter Sender.isOpen
        if kept = [] then none else some { e with txs := kept }
      else none))
    if l' = [] then aremove patterns T else aupdate patterns T l'

/-- The body of `BusHandle::publish::<T>(from, msg)` after the pause wait
loop (`bus.rs` 261-453): look up exact and pattern senders, count the open
ones, return early when there are none, otherwise perform blocking sends to
every open recipient (exact first, then pattern matches, in list order) and
then run lazy cleanup — except that the single-open-exact fast path returns
before cleanup. -/
def publishBody (s : BusInner) (T : TypeId) (src : ServiceAddr) : PublishResult :=
  let sendersExact := (exactSenders s T src).1
  let logged := (exactSenders s T src).2
  match patternSenders s T src with
  | none => .panicked
  | some sendersPatterns =>
    let openExact := (sendersExact.getD []).filter Sender.isOpen
    let openPat := sendersPatterns.filter Sender.isOpen
    let total := openExact.length + openPat.length
    let logTrace : List SendEvent := if logged then [.logTypeMismatch] else []
    if total = 0 then .done logTrace s
    else if total = 1 ∧ openExact ≠ [] then
      -- fast path: the one open sender was found in the exact list;
      -- the source returns before the cleanup section
      .done (logTrace ++ sendSeq openExact) s
    else
      let needCleanTopics := (sendersExact.getD []).any (fun t => t.closed)
      let needCleanPatterns := sendersPatterns.any (fun t => t.closed)
      let topics' := if needCleanTopics then cleanTopics s.topics T src else s.topics
      let patterns' := if needCleanPatterns then cleanPatterns s.patterns T else s.patterns
      .done (logTrace ++ sendSeq (openExact ++ openPat))
        { s with topics := topics', patterns := patterns' }

/-- `BusHandle::publish` (`bus.rs` 246-453): first the pause wait loop
(`while paused { resume_notify.notified().await }`), then the body. -/
def BusInner.publish (s : BusInner) (T : TypeId) (src : ServiceAddr) : PublishResult :=
  if s.paused then .blocked else publishBody s T src

/-- The trace of send operations a publish performed (empty when it is
still blocked on the pause flag or died in a panic). -/
def traceOf : PublishResult → List SendEvent
  | .blocked => []
  | .panicked => []
  | .done tr _ => tr

/-- The channel ids a finished publish sent to, in order. -/
def sentSids : PublishResult → List Nat
  | .blocked => []
  | .panicked => []
  | .done tr _ =>
    tr.filterMap (fun e =>
      match e with
      | .blockingSend sid _ => some sid
      | _ => none)

/-- Every topic box and pattern box is stored under the key equal to its own
runtime type — the invariant every state built through the public API has. -/
def wellTypedB (s : BusInner) : Bool :=
  (s.topics.all (fun q => q.2.all (fun p => p.2.actualTy = p.1)))
  && (s.patterns.all (fun q => q.2.all (fun e => e.actualTy = q.1)))

/-! ## Application controller, from `src/app.rs` -/

/-- A JSON configuration value as the app passes it around; `none` models
`serde_json::Value::Null`. -/
abbrev JsonVal := Option Nat

/-- One registered component factory (`registry.rs::FactoryEntry` as consumed
by `App::start`): its `type_name()` and whether its `build` succeeds. -/
structure FactoryM where
  typeName : String
  buildOk : Bool
deriving DecidableEq

/-- `config.rs::ComponentConfig` as used by `app.rs` (id, kind, params). -/
structure ComponentCfgM where
  id : String
  kind : String
  params : JsonVal
deriving DecidableEq

/-- The fields of `app.rs::App` that `start`/`config`/`stop` read or write. -/
structure AppM where
  components : List ComponentCfgM
  queueCapacity : Nat
  started : Bool
  tasks : List String
  compCfgTxs : List (String × JsonVal)
  initCfgJson : Option JsonVal
  shutdownSent : Bool
  busPaused : Bool
deriving DecidableEq

/-- A fresh `App::new` state over a given component list. -/
def AppM.new (comps : List ComponentCfgM) (cap : Nat) : AppM :=
  { components := comps, queueCapacity := cap, started := false, tasks := [],
    compCfgTxs := [], initCfgJson := none, shutdownSent := false, busPaused := false }

/-- Factory lookup by `type_name` (`app.rs` lines 102-109). -/
def findFactory (reg : List FactoryM) (kind : String) : Option FactoryM :=
  reg.find? (fun f => f.typeName = kind)

/-- Auto-discovery when no components are configured (`app.rs` lines 86-97):
one instance `"<type_name>-1"` per registered factory, `Null` params. -/
def defaultComponents (reg : List FactoryM) : List ComponentCfgM :=
  reg.map (fun f => ⟨f.typeName ++ "-1", f.typeName, none⟩)

/-- Result of `App::start`. -/
inductive StartOutcome
  | ok
  | errUnknownKind (kind : String)
deriving DecidableEq

/-- The per-component loop of `App::start` (`app.rs` lines 100-182): resolve
the factory by kind (`?`-returning an error when unknown), create the
config watch channel seeded from the global init config or the component
params, and spawn the component task (recorded in `tasks`).  After the
loop `started` is set and `Ok(())` returned. -/
def startLoop (reg : List FactoryM) : AppM → List ComponentCfgM → AppM × StartOutcome
  | s, [] => ({ s with started := true }, .ok)
  | s, cc :: rest =>
    match findFactory reg cc.kind with
    | none => (s, .errUnknownKind cc.kind)
    | some _f =>
      let initV := s.initCfgJson.getD cc.params
      startLoop reg
        { s with compCfgTxs := s.compCfgTxs ++ [(cc.id, initV)], tasks := s.tasks ++ [cc.id] } rest

/-- `App::start` (`app.rs` lines 81-185): no-op when already started;
otherwise fill in default components when none are configured, then run the
spawn loop.  There is no barrier wait anywhere in this function. -/
def AppM.start (reg : List FactoryM) (s : AppM) : AppM × StartOutcome :=
  if s.started then (s, .ok)
  else
    let comps := if s.components = [] then defaultComponents reg else s.components
    startLoop reg { s with components := comps } comps

/-- What a single spawned component task does when the factory's build
fails (`app.rs` lines 146-178): the error is logged inside the task and the
task ends; nothing is reported back to `start`. -/
inductive TaskOutcome
  | ran (id : String)
  | buildFailureLogged (id : String)
deriving DecidableEq

/-- The spawned task's observable outcome per component. -/
def componentTask (f : FactoryM) (id : String) : TaskOutcome :=
  if f.buildOk then .ran id else .buildFailureLogged id

/-- `App::stop` (`app.rs` lines 186-196): send shutdown, linger, abort all
tasks, mark not started. -/
def AppM.stop (s : AppM) : AppM :=
  { s with shutdownSent := true, tasks := [], started := false }

/-- Observable effects of `App::config` when called at runtime. -/
inductive CfgEvent
  | pausedBus
  | sentTo (id : String)
  | sleptBriefly
  | resumedBus
deriving DecidableEq

/-- `App::config` (`app.rs` lines 65-80): before start, stash the value as
the initial config; after start, pause the bus, broadcast the value to
every component's config watch channel, sleep briefly, resume the bus. -/
def AppM.config (s : AppM) (v : JsonVal) : AppM × List CfgEvent :=
  if !s.started then ({ s with initCfgJson := some v }, [])
  else
    ({ s with compCfgTxs := s.compCfgTxs.map (fun q => (q.1, v)), busPaused := false },
     [.pausedBus] ++ s.compCfgTxs.map (fun q => .sentTo q.1) ++ [.sleptBriefly, .resumedBus])

/-! ## Read-only config store, from `src/component.rs` -/

/-- `component.rs::ConfigStore`: a refcounted frozen map from config type
identity to a shared value (values modelled by identity numbers). -/
structure ConfigStore where
  inner : List (TypeId × Nat)
deriving DecidableEq

/-- `ConfigStore::empty`. -/
def ConfigStore.empty : ConfigStore := ⟨[]⟩

/-- `ConfigStore::from_frozen_map`. -/
def ConfigStore.fromFrozenMap (m : List (TypeId × Nat)) : ConfigStore := ⟨m⟩

/-- `ConfigStore::get::<T>`: lookup by exact type identity; a pure read,
the store is not modified (there is no mutating method on `ConfigStore`). -/
def ConfigStore.get (c : ConfigStore) (T : TypeId) : Option Nat :=
  alookup c.inner T

/-! ## Return-value auto-publish adapter, from
`microbus-macros/src/codegen/emit_ret.rs` and its call sites -/

namespace Adapter

/-- `analyze.rs::RetCase`: the build-time classification of a declared
return type. -/
inductive RetCase
  | Unit
  | Some
  | OptionSome
  | ResultUnit
  | ResultSome
  | ResultOption
  | Erased
  | OptionErased
  | VecErased
  | AnyBox
  | AnyArc
  | OptionAnyBox
  | OptionAnyArc
  | ResultAnyBox
  | ResultAnyArc
deriving DecidableEq

/-- The runtime shape of a value returned by a user hook, as the generated
match sees it; payload types are tracked by `TypeId`. -/
inductive RVal
  | vUnit
  | vErr
  | vOkUnit
  | vVal (t : TypeId)
  | vNone
  | vSome (t : TypeId)
  | vOk (t : TypeId)
  | vOkNone
  | vOkSome (t : TypeId)
  | vErased (t : TypeId)
  | vSomeErased (t : TypeId)
  | vVecErased (ts : List TypeId)
  | vBox (t : TypeId)
  | vArc (t : TypeId)
  | vSomeBox (t : TypeId)
  | vSomeArc (t : TypeId)
  | vOkBox (t : TypeId)
  | vOkArc (t : TypeId)
deriving DecidableEq

/-- The observable actions of one generated return-dispatch sequence. -/
inductive AdapterEvent
  | publishAuto (t : TypeId)
  | publishErased (t : TypeId)
  | publishAnyBox (t : TypeId)
  | publishAnyArc (t : TypeId)
  | logWarn
  | logError
  | markBarrierFailed
  | returnErr
deriving DecidableEq

/-- The error arm shared by every `Result*` case of `gen_ret_case_tokens`:
with `abort_on_error` it logs at error level, calls
`__startup_mark_failed(&ctx)` and `return Err(e)`; without it, it logs a
warning and falls through. -/
def errArm (abortOnError : Bool) : List AdapterEvent :=
  if abortOnError then [.logError, .markBarrierFailed, .returnErr] else [.logWarn]

/-- `emit_ret.rs::gen_ret_case_tokens` (lines 6-79): what the generated
token sequence does for each return-shape case, given the runtime value.
`none` means the value cannot occur for that declared shape (the Rust type
system rules it out at the call site). -/
def genRetCase (abortOnError : Bool) (rc : RetCase) (v : RVal) :
    Option (List AdapterEvent) :=
  match rc, v with
  | .Unit, .vUnit => some []
  | .ResultUnit, .vOkUnit => some []
  | .ResultUnit, .vErr => some (errArm abortOnError)
  | .Some, .vVal t => some [.publishAuto t]
  | .OptionSome, .vSome t => some [.publishAuto t]
  | .OptionSome, .vNone => some []
  | .ResultSome, .vOk t => some [.publishAuto t]
  | .ResultSome, .vErr => some (errArm abortOnError)
  | .ResultOption, .vOkSome t => some [.publishAuto t]
  | .ResultOption, .vOkNone => some []
  | .ResultOption, .vErr => some (errArm abortOnError)
  | .Erased, .vErased t => some [.publishErased t]
  | .OptionErased, .vSomeErased t => some [.publishErased t]
  | .OptionErased, .vNone => some []
  | .VecErased, .vVecErased ts => some (ts.map .publishErased)
  | .AnyBox, .vBox t => some [.publishAnyBox t]
  | .AnyArc, .vArc t => some [.publishAnyArc t]
  | .OptionAnyBox, .vSomeBox t => some [.publishAnyBox t]
  | .OptionAnyBox, .vNone => some []
  | .OptionAnyArc, .vSomeArc t => some [.publishAnyArc t]
  | .OptionAnyArc, .vNone => some []
  | .ResultAnyBox, .vOkBox t => some [.publishAnyBox t]
  | .ResultAnyBox, .vErr => some (errArm abortOnError)
  | .ResultAnyArc, .vOkArc t => some [.publishAnyArc t]
  | .ResultAnyArc, .vErr => some (errArm abortOnError)
  | _, _ => none

/-- The dedicated stop-hook match of `emit_run.rs::build_init_stop_calls`
(lines 37-54): it covers the six plain shapes, publishes like the generic
adapter, and on `Err` always logs a warning and continues. -/
def stopRetCase (rc : RetCase) (v : RVal) : Option (List AdapterEvent) :=
  match rc, v with
  | .Unit, .vUnit => some []
  | .ResultUnit, .vOkUnit => some []
  | .ResultUnit, .vErr => some [.logWarn]
  | .Some, .vVal t => some [.publishAuto t]
  | .OptionSome, .vSome t => some [.publishAuto t]
  | .OptionSome, .vNone => some []
  | .ResultSome, .vOk t => some [.publishAuto t]
  | .ResultSome, .vErr => some [.logWarn]
  | .ResultOption, .vOkSome t => some [.publishAuto t]
  | .ResultOption, .vOkNone => some []
  | .ResultOption, .vErr => some [.logWarn]
  | _, _ => none

/-- Which generated call sites pass `abort_on_error = true` to
`gen_ret_case_tokens`: `build_init_stop_calls` passes `true` for init
(`emit_run.rs` line 24), `build_handle_parts` passes `false`
(`emit_handles.rs` line 29), `build_active_parts` passes `false` for both
once and loop actives (`emit_actives.rs` lines 26 and 41). -/
inductive CallSite
  | initSite
  | handleSite
  | activeSite
deriving DecidableEq

/-- The `abort_on_error` argument each call site passes. -/
def abortOnErrorAt : CallSite → Bool
  | .initSite => true
  | .handleSite => false
  | .activeSite => false

/-- Whether an adapter event is a bus publication. -/
def AdapterEvent.isPub : AdapterEvent → Bool
  | .publishAuto _ => true
  | .publishErased _ => true
  | .publishAnyBox _ => true
  | .publishAnyArc _ => true
  | _ => false

/-- Number of bus publications an event sequence performs. -/
def pubCount (evs : List AdapterEvent) : Nat :=
  evs.countP (fun e => e.isPub)

/-- Modelled from the spec: the publication count the shape table of
§4.5 mandates for each return shape and runtime value — `Unit`: none;
`Value`: publish; `Option`: publish only on `Some`; `Result`: publish only
on `Ok`; `Erased`/`Any*`: one publication of the carried value, with the
obvious `Option`/`Result` compositions; `VecErased` of length n: exactly
n publications. -/
def specMandatedCount (rc : RetCase) (v : RVal) : Nat :=
  match rc, v with
  | .Unit, _ => 0
  | .ResultUnit, _ => 0
  | .Some, _ => 1
  | .OptionSome, .vSome _ => 1
  | .OptionSome, _ => 0
  | .ResultSome, .vOk _ => 1
  | .ResultSome, _ => 0
  | .ResultOption, .vOkSome _ => 1
  | .ResultOption, _ => 0
  | .Erased, _ => 1
  | .OptionErased, .vSomeErased _ => 1
  | .OptionErased, _ => 0
  | .VecErased, .vVecErased ts => ts.length
  | .VecErased, _ => 0
  | .AnyBox, _ => 1
  | .AnyArc, _ => 1
  | .OptionAnyBox, .vSomeBox _ => 1
  | .OptionAnyBox, _ => 0
  | .OptionAnyArc, .vSomeArc _ => 1
  | .OptionAnyArc, _ => 0
  | .ResultAnyBox, .vOkBox _ => 1
  | .ResultAnyBox, _ => 0
  | .ResultAnyArc, .vOkArc _ => 1
  | .ResultAnyArc, _ => 0

/-- One iteration of the generated handler worker loop
(`emit_handles.rs` lines 34-52): break on stop or on a closed
subscription; on a message run the adapter body and loop again — there is
no break on a handler error. -/
inductive WorkerStep
  | breakLoop
  | continueLoop (events : List AdapterEvent)
deriving DecidableEq

/-- The generated handler worker's reaction to one `select` outcome. -/
def handleWorkerStep (stopSignaled : Bool) (rc : RetCase) (msg : Option RVal) :
    WorkerStep :=
  if stopSignaled then .breakLoop
  else
    match msg with
    | none => .breakLoop
    | some v => .continueLoop ((genRetCase false rc v).getD [])

end Adapter

/-! ## The generated `Component::run` phase sequence, from
`microbus-macros/src/codegen/emit_run.rs::gen_component_run` -/

namespace Run

/-- `parse.rs::ActiveKind`. -/
inductive ActiveKind
  | loopKind
  | onceKind
deriving DecidableEq

/-- One observable phase of the generated `run` body. `awaitWorkers` is
the phase the generated code would contain if it joined its workers; it is
included so its absence can be stated. -/
inductive Phase
  | initCall (i : Nat)
  | subscribeDecl (i : Nat)
  | arriveBarrier
  | onceCall (i : Nat)
  | spawnHandleWorker (i : Nat)
  | spawnLoopWorker (i : Nat)
  | waitStop
  | stopCall (i : Nat)
  | awaitWorkers
  | exitOk
deriving DecidableEq

/-- Positions (into the actives list) that `build_active_parts` routes to a
given bucket, in declaration order (`emit_actives.rs` lines 13-61). -/
def idxsOf (k : ActiveKind) : List ActiveKind → Nat → List Nat
  | [], _ => []
  | a :: rest, i =>
    if a = k then i :: idxsOf k rest (i + 1) else idxsOf k rest (i + 1)

/-- The statement sequence of the generated `run` body
(`emit_run.rs` lines 86-103): init calls, then subscription declarations,
then `__startup_arrive_and_wait`, then the once-active calls, then handler
worker spawns, then loop-active worker spawns, then `__recv_stop`, then
the stop hook calls, then `Ok(())` — with no join of `__workers`
anywhere. -/
def runSequence (nInits nHandles nStops : Nat) (acts : List ActiveKind) : List Phase :=
  (List.range nInits).map .initCall
    ++ (List.range nHandles).map .subscribeDecl
    ++ [.arriveBarrier]
    ++ (idxsOf .onceKind acts 0).map .onceCall
    ++ (List.range nHandles).map .spawnHandleWorker
    ++ (idxsOf .loopKind acts 0).map .spawnLoopWorker
    ++ [.waitStop]
    ++ (List.range nStops).map .stopCall
    ++ [.exitOk]

/-- Lifecycle rank of a phase: the strict order the claim asserts. -/
def phaseRank : Phase → Nat
  | .initCall _ => 0
  | .subscribeDecl _ => 1
  | .arriveBarrier => 2
  | .onceCall _ => 3
  | .spawnHandleWorker _ => 4
  | .spawnLoopWorker _ => 5
  | .waitStop => 6
  | .stopCall _ => 7
  | .awaitWorkers => 8
  | .exitOk => 9

end Run

end Microbus

namespace Microbus

/-! ## Concrete fixtures used to evaluate the model -/

/-- A concrete service address (`ServiceAddr { service, instance }`). -/
def addrA : ServiceAddr := ⟨1, "a"⟩

/-- A second address of the same service kind, different instance. -/
def addrB : ServiceAddr := ⟨1, "b"⟩

/-- A concrete message type identity. -/
def tickTy : TypeId := 5

/-- A bus with one open subscriber to `tickTy` registered under `addrA`. -/
def demoBus : BusInner :=
  ⟨[(addrA, [(tickTy, ⟨tickTy, [⟨1, false⟩]⟩)])], [], 8, false, 2⟩

/-- A bus with two open subscribers to `tickTy` under `addrA`. -/
def demoBus2 : BusInner :=
  ⟨[(addrA, [(tickTy, ⟨tickTy, [⟨1, false⟩, ⟨2, false⟩]⟩)])], [], 8, false, 3⟩

/-- A bus whose exact-topic box at key `tickTy` holds a topic of a
different runtime type (the defended-against mismatch). -/
def mismatchBus : BusInner :=
  ⟨[(addrA, [(tickTy, ⟨7, [⟨1, false⟩]⟩)])], [], 8, false, 2⟩

/-- A bus whose pattern list at key `tickTy` holds a box of a different
runtime type. -/
def patMismatchBus : BusInner :=
  ⟨[], [(tickTy, [⟨7, ⟨none, none⟩, [⟨1, false⟩]⟩])], 8, false, 2⟩

/-- `demoBus` after `pause()`. -/
def pausedDemoBus : BusInner := demoBus.pause

/-- The bus state after a full publish on `demoBus` (late in the
lifecycle). -/
def afterPublishBus : BusInner :=
  match demoBus.publish tickTy addrA with
  | .done _ s => s
  | _ => demoBus

/-- A registry with a single factory whose build fails. -/
def demoReg : List FactoryM := [⟨"Worker", false⟩]

/-- A fresh app with no explicit component configs. -/
def demoApp : AppM := AppM.new [] 8

/-- A started app with one component config channel currently holding
`some 0`. -/
def startedApp : AppM :=
  ⟨[], 8, true, ["c-1"], [("c-1", some 0)], none, false, false⟩

end Microbus

/-! ## Helper lemmas -/

namespace Microbus

theorem alookup_mem {α β : Type} [DecidableEq α]
    {l : List (α × β)} {a : α} {b : β} (h : alookup l a = some b) : (a, b) ∈ l := by
  induction l with
  | nil => simp [alookup] at h
  | cons p rest ih =>
    obtain ⟨k, v⟩ := p
    by_cases hk : k = a
    · simp [alookup, hk] at h
      subst hk; subst h; exact List.mem_cons_self _ _
    · simp [alookup, hk] at h
      exact List.mem_cons_of_mem _ (ih h)

theorem alookup_aupdate_self {α β : Type} [DecidableEq α]
    (l : List (α × β)) (a : α) (b : β) : alookup (aupdate l a b) a = some b := by
  induction l with
  | nil => simp [alookup, aupdate]
  | cons p rest ih =>
    obtain ⟨k, v⟩ := p
    by_cases hk : k = a
    · simp [alookup, aupdate, hk]
    · simp [alookup, aupdate, hk, ih]

theorem mem_aupdate {α β : Type} [DecidableEq α]
    {l : List (α × β)} {a : α} {b : β} {p : α × β}
    (h : p ∈ aupdate l a b) : p ∈ l ∨ p = (a, b) := by
  induction l with
  | nil => simp [aupdate] at h; right; exact h
  | cons q rest ih =>
    obtain ⟨k, v⟩ := q
    by_cases hk : k = a
    · simp [aupdate, hk] at h
      rcases h with h | h
      · right; exact h
      · left; exact List.mem_cons_of_mem _ h
    · simp [aupdate, hk] at h
      rcases h with h | h
      · left; simp [h]
      · rcases ih h with h' | h'
        · left; exact List.mem_cons_of_mem _ h'
        · right; exact h'

theorem sendSeq_nil : sendSeq [] = [] := rfl

theorem dropLast_concat_getLast {α : Type} (x : α) (xs : List α) :
    (x :: xs).dropLast ++ [(x :: xs).getLast (by simp)] = x :: xs := by
  exact List.dropLast_append_getLast (by simp)

/-- Extracting the ids of a list of cloned blocking sends. -/
theorem filterMap_blockingSend_map (l : List Sender) (m : SendMode) :
    (l.map (fun t => SendEvent.blockingSend t.sid m)).filterMap (fun e =>
      match e with
      | .blockingSend sid _ => some sid
      | _ => none) = l.map Sender.sid := by
  induction l with
  | nil => rfl
  | cons x xs ih =>
    simp only [List.map_cons, List.filterMap_cons]
    rw [ih]

/-- The channel ids of the send sequence are exactly the recipients' ids. -/
theorem sendSeq_sids (l : List Sender) :
    (sendSeq l).filterMap (fun e =>
      match e with
      | .blockingSend sid _ => some sid
      | _ => none) = l.map Sender.sid := by
  match l with
  | [] => simp [sendSeq]
  | x :: xs =>
    have hne : x :: xs ≠ [] := by simp
    have hlast : (x :: xs).getLast? = some ((x :: xs).getLast hne) :=
      List.getLast?_eq_getLast _ hne
    simp only [sendSeq, hlast]
    rw [List.filterMap_append, filterMap_blockingSend_map]
    have h2 : List.filterMap (fun e =>
        match e with
        | SendEvent.blockingSend sid _ => some sid
        | _ => none)
        [SendEvent.blockingSend ((x :: xs).getLast hne).sid .moved]
        = [((x :: xs).getLast hne).sid] := rfl
    rw [h2]
    have h3 : ((x :: xs).dropLast).map Sender.sid ++ [((x :: xs).getLast hne).sid]
        = ((x :: xs).dropLast ++ [(x :: xs).getLast hne]).map Sender.sid := by
      rw [List.map_append]
      rfl
    rw [h3, dropLast_concat_getLast]

/-- No send of `publish` is a non-blocking try-send. -/
theorem sendSeq_no_try (l : List Sender) :
    ∀ e ∈ sendSeq l, e.isTry = false := by
  intro e he
  match l with
  | [] => simp [sendSeq] at he
  | x :: xs =>
    have hne : x :: xs ≠ [] := by simp
    have hlast : (x :: xs).getLast? = some ((x :: xs).getLast hne) :=
      List.getLast?_eq_getLast _ hne
    simp only [sendSeq, hlast] at he
    rcases List.mem_append.1 he with h | h
    · obtain ⟨t, _, rfl⟩ := List.mem_map.1 h
      rfl
    · simp at h
      rw [h]
      rfl

/-- No blocked sender id appears in the send sequence of the open
recipients. -/
theorem sendSeq_mem_blockingSend {l : List Sender} {e : SendEvent}
    (he : e ∈ sendSeq l) : ∃ t ∈ l, ∃ m, e = .blockingSend t.sid m := by
  match l with
  | [] => simp [sendSeq] at he
  | x :: xs =>
    have hne : x :: xs ≠ [] := by simp
    have hlast : (x :: xs).getLast? = some ((x :: xs).getLast hne) :=
      List.getLast?_eq_getLast _ hne
    simp only [sendSeq, hlast] at he
    rcases List.mem_append.1 he with h | h
    · obtain ⟨t, ht, rfl⟩ := List.mem_map.1 h
      exact ⟨t, List.dropLast_subset _ ht, .cloned, rfl⟩
    · simp at h
      refine ⟨(x :: xs).getLast hne, List.getLast_mem hne, .moved, h⟩

end Microbus

namespace Microbus

/-- The open recipients of a publish: the still-open senders of the exact
topic at `(from, T)` followed by the still-open senders of the matching
pattern subscriptions for `T`. -/
def openRecipients (s : BusInner) (T : TypeId) (src : ServiceAddr) : List Sender :=
  ((exactSenders s T src).1.getD []).filter Sender.isOpen
    ++ ((patternSenders s T src).getD []).filter Sender.isOpen

theorem wellTypedB_topics {s : BusInner} (hw : wellTypedB s = true)
    {src : ServiceAddr} {tm : TopicMap} (h : alookup s.topics src = some tm)
    {T : TypeId} {e : TopicEntry} (h2 : alookup tm T = some e) :
    e.actualTy = T := by
  have hw' := hw
  simp only [wellTypedB, Bool.and_eq_true, List.all_eq_true, decide_eq_true_eq] at hw'
  exact hw'.1 _ (alookup_mem h) _ (alookup_mem h2)

theorem wellTypedB_patterns {s : BusInner} (hw : wellTypedB s = true)
    {T : TypeId} {l : List PatternEntry} (h : alookup s.patterns T = some l) :
    ∀ e ∈ l, e.actualTy = T := by
  have hw' := hw
  simp only [wellTypedB, Bool.and_eq_true, List.all_eq_true, decide_eq_true_eq] at hw'
  exact fun e he => hw'.2 _ (alookup_mem h) e he

/-- In a well-typed state the exact-topic downcast never fails: no
mismatch is logged. -/
theorem exactSenders_no_log {s : BusInner} (hw : wellTypedB s = true)
    (T : TypeId) (src : ServiceAddr) : (exactSenders s T src).2 = false := by
  cases h : alookup s.topics src with
  | none => simp [exactSenders, h]
  | some tm =>
    cases h2 : alookup tm T with
    | none => simp [exactSenders, h, h2]
    | some e =>
      have he := wellTypedB_topics hw h h2
      simp [exactSenders, h, h2, he]

/-- In a well-typed state the pattern-list downcasts never fail: publish
never panics there. -/
theorem patternSenders_isSome {s : BusInner} (hw : wellTypedB s = true)
    (T : TypeId) (src : ServiceAddr) : (patternSenders s T src).isSome := by
  cases h : alookup s.patterns T with
  | none => simp [patternSenders, h]
  | some l =>
    have hl := wellTypedB_patterns hw h
    have hall : l.all (fun e => e.actualTy = T) = true :=
      List.all_eq_true.2 (fun e he => decide_eq_true (hl e he))
    simp [patternSenders, h, hall]

/-- Central characterization of `publish` in a well-typed, unpaused state:
it completes (no panic), and its trace is exactly the blocking-send
sequence over the open recipients — exact subscribers of `(from, T)`
first, then matching pattern subscribers, in list order. -/
theorem publish_done {s : BusInner} (hw : wellTypedB s = true)
    (hp : s.paused = false) (T : TypeId) (src : ServiceAddr) :
    ∃ s', s.publish T src = .done (sendSeq (openRecipients s T src)) s' := by
  have hlog := exactSenders_no_log hw T src
  obtain ⟨sp, hsp⟩ := Option.isSome_iff_exists.1 (patternSenders_isSome hw T src)
  have hpub : s.publish T src = publishBody s T src := by
    unfold BusInner.publish
    simp [hp]
  rw [hpub]
  unfold publishBody
  rw [hsp, hlog]
  simp only [if_false, Bool.false_eq_true, List.nil_append]
  set openExact := ((exactSenders s T src).1.getD []).filter Sender.isOpen with hoe
  set openPat := sp.filter Sender.isOpen with hop
  have hor : openRecipients s T src = openExact ++ openPat := by
    unfold openRecipients
    rw [hsp]
    rfl
  by_cases h0 : openExact.length + openPat.length = 0
  · have he1 : openExact = [] := List.length_eq_zero.1 (Nat.eq_zero_of_add_eq_zero_right h0)
    have he2 : openPat = [] := List.length_eq_zero.1 (Nat.eq_zero_of_add_eq_zero_left h0)
    refine ⟨s, ?_⟩
    rw [hor, he1, he2]
    simp [h0, sendSeq]
  · by_cases h1 : openExact.length + openPat.length = 1 ∧ openExact ≠ []
    · have hne : openExact ≠ [] := h1.2
      have hlen : 1 ≤ openExact.length := by
        cases hx : openExact with
        | nil => exact absurd hx hne
        | cons a as => simp [hx]
      have hsum : openExact.length + openPat.length = 1 := h1.1
      have hpz : openPat.length = 0 := by omega
      have hlen1 : openExact.length = 1 := by omega
      have hpe : openPat = [] := List.length_eq_zero.1 hpz
      refine ⟨s, ?_⟩
      rw [hor, hpe, List.append_nil]
      simp [h0, hlen1, hne, hpe]
    · rw [hor]
      simp only [if_neg h0, if_neg h1]
      exact ⟨_, rfl⟩
end Microbus

namespace Microbus

/-- Ids a publish delivers to, in a well-typed unpaused state: exactly the
open recipients' channel ids. -/
theorem publish_sentSids {s : BusInner} (hw : wellTypedB s = true)
    (hp : s.paused = false) (T : TypeId) (src : ServiceAddr) :
    sentSids (s.publish T src) = (openRecipients s T src).map Sender.sid := by
  obtain ⟨s', h⟩ := publish_done hw hp T src
  rw [h]
  exact sendSeq_sids _

theorem wellTypedB_topics_mem {s : BusInner} (hw : wellTypedB s = true) :
    ∀ q ∈ s.topics, ∀ p ∈ q.2, p.2.actualTy = p.1 := by
  have hw' := hw
  simp only [wellTypedB, Bool.and_eq_true, List.all_eq_true, decide_eq_true_eq] at hw'
  exact hw'.1

theorem wellTypedB_patterns_mem {s : BusInner} (hw : wellTypedB s = true) :
    ∀ q ∈ s.patterns, ∀ e ∈ q.2, e.actualTy = q.1 := by
  have hw' := hw
  simp only [wellTypedB, Bool.and_eq_true, List.all_eq_true, decide_eq_true_eq] at hw'
  exact hw'.2

theorem wellTypedB_intro {s : BusInner}
    (ht : ∀ q ∈ s.topics, ∀ p ∈ q.2, p.2.actualTy = p.1)
    (hp : ∀ q ∈ s.patterns, ∀ e ∈ q.2, e.actualTy = q.1) :
    wellTypedB s = true := by
  simp only [wellTypedB, Bool.and_eq_true, List.all_eq_true, decide_eq_true_eq]
  exact ⟨ht, hp⟩

/-- In a well-typed state, `subscribe` is always silently accepted: it
returns a live subscription and logs nothing. -/
theorem subscribe_accepted {s : BusInner} (hw : wellTypedB s = true)
    (T : TypeId) (src : ServiceAddr) :
    (s.subscribe T src).live = true ∧ (s.subscribe T src).logged = false
      ∧ (s.subscribe T src).sid = s.nextSid := by
  unfold BusInner.subscribe
  cases h : alookup s.topics src with
  | none => simp [h, alookup]
  | some tm =>
    cases h2 : alookup tm T with
    | none => simp [h, h2]
    | some e =>
      have he := wellTypedB_topics hw h h2
      simp [h, h2, he]

/-- In a well-typed state, `subscribe` appends exactly one fresh open
sender to the exact topic at `(from, T)`. -/
theorem subscribe_appends {s : BusInner} (hw : wellTypedB s = true)
    (T : TypeId) (src : ServiceAddr) :
    (exactSenders (s.subscribe T src).next T src).1
      = some (((exactSenders s T src).1.getD []) ++ [⟨s.nextSid, false⟩]) := by
  unfold BusInner.subscribe
  cases h : alookup s.topics src with
  | none =>
    simp only [h, Option.getD_none, alookup]
    simp [exactSenders, alookup_aupdate_self, h, alookup]
  | some tm =>
    cases h2 : alookup tm T with
    | none =>
      simp only [h, Option.getD_some, h2]
      simp [exactSenders, alookup_aupdate_self, h2, h]
    | some e =>
      have he := wellTypedB_topics hw h h2
      simp only [h, Option.getD_some, h2, he, if_true]
      simp [exactSenders, alookup_aupdate_self, h, h2, he]

/-- `subscribe` leaves the pattern table, the paused flag and the
capacity unchanged. -/
theorem subscribe_frame {s : BusInner} (T : TypeId) (src : ServiceAddr) :
    (s.subscribe T src).next.patterns = s.patterns
      ∧ (s.subscribe T src).next.paused = s.paused
      ∧ (s.subscribe T src).next.defaultCapacity = s.defaultCapacity := by
  unfold BusInner.subscribe
  cases h : alookup s.topics src with
  | none => simp [h, alookup]
  | some tm =>
    cases h2 : alookup tm T with
    | none => simp [h, h2]
    | some e =>
      by_cases he : e.actualTy = T <;> simp [h, h2, he]

/-- Well-typedness is preserved by `subscribe`. -/
theorem wellTypedB_subscribe {s : BusInner} (hw : wellTypedB s = true)
    (T : TypeId) (src : ServiceAddr) :
    wellTypedB (s.subscribe T src).next = true := by
  have ht := wellTypedB_topics_mem hw
  have hpm := wellTypedB_patterns_mem hw
  unfold BusInner.subscribe
  cases h : alookup s.topics src with
  | none =>
    simp only [h, Option.getD_none]
    refine wellTypedB_intro ?_ hpm
    intro q hq p hp
    rcases mem_aupdate hq with hq' | hq'
    · exact ht q hq' p hp
    · subst hq'
      simp only [alookup, aupdate] at hp
      simp at hp
      subst hp
      rfl
  | some tm =>
    cases h2 : alookup tm T with
    | none =>
      simp only [h, Option.getD_some, h2]
      refine wellTypedB_intro ?_ hpm
      intro q hq p hp
      rcases mem_aupdate hq with hq' | hq'
      · exact ht q hq' p hp
      · subst hq'
        rcases mem_aupdate hp with hp' | hp'
        · exact ht (src, tm) (alookup_mem h) p hp'
        · subst hp'
          rfl
    | some e =>
      have he := wellTypedB_topics hw h h2
      simp only [h, Option.getD_some, h2, he, if_true]
      refine wellTypedB_intro ?_ hpm
      intro q hq p hp
      rcases mem_aupdate hq with hq' | hq'
      · exact ht q hq' p hp
      · subst hq'
        rcases mem_aupdate hp with hp' | hp'
        · exact ht (src, tm) (alookup_mem h) p hp'
        · subst hp'
          rfl

end Microbus

namespace Microbus

/-- An exact-topic downcast failure implies the publish treats the entry
as absent (`senders_exact = None`). -/
theorem exactSenders_mismatch_none {s : BusInner} {T : TypeId} {src : ServiceAddr}
    (h : (exactSenders s T src).2 = true) : (exactSenders s T src).1 = none := by
  cases h1 : alookup s.topics src with
  | none => simp [exactSenders, h1]
  | some tm =>
    cases h2 : alookup tm T with
    | none => simp [exactSenders, h1, h2]
    | some e =>
      by_cases he : e.actualTy = T
      · simp [exactSenders, h1, h2, he] at h
      · simp [exactSenders, h1, h2, he]

/-- An exact-topic type mismatch during publish is logged and the publish
continues: it completes with a `done` outcome whose trace is the mismatch
log followed by the blocking sends to the open pattern subscribers. -/
theorem publish_exact_mismatch_continues {s : BusInner} {T : TypeId} {src : ServiceAddr}
    (hp : s.paused = false) (hlog : (exactSenders s T src).2 = true)
    {sp : List Sender} (hsp : patternSenders s T src = some sp) :
    ∃ s', s.publish T src
      = .done (.logTypeMismatch :: sendSeq (sp.filter Sender.isOpen)) s' := by
  have hnone := exactSenders_mismatch_none hlog
  have hpub : s.publish T src = publishBody s T src := by
    unfold BusInner.publish
    simp [hp]
  rw [hpub]
  unfold publishBody
  rw [hsp, hlog, hnone]
  simp only [Option.getD_none, List.filter_nil, List.length_nil, Nat.zero_add,
    List.nil_append, if_true]
  by_cases h0 : (sp.filter Sender.isOpen).length = 0
  · have he : sp.filter Sender.isOpen = [] := List.length_eq_zero.1 h0
    refine ⟨s, ?_⟩
    rw [he]
    simp [sendSeq]
  · have h1 : ¬((sp.filter Sender.isOpen).length = 1 ∧ ([] : List Sender) ≠ []) := by
      simp
    simp only [if_neg h0, if_neg h1]
    exact ⟨_, rfl⟩

/-- A pattern-list downcast mismatch makes publish panic (the source
`panic!`s with "type mismatch in pattern list for this type"). -/
theorem publish_pattern_mismatch_panics {s : BusInner} {T : TypeId} {src : ServiceAddr}
    (hp : s.paused = false) (h : patternSenders s T src = none) :
    s.publish T src = .panicked := by
  unfold BusInner.publish
  simp only [hp, Bool.false_eq_true, if_false]
  unfold publishBody
  rw [h]

/-- A `subscribe` hitting an entry of a different runtime type logs an
error and returns a dead subscription; the process does not abort and the
bus state is unchanged except for the dummy channel allocation. -/
theorem subscribe_mismatch {s : BusInner} {T : TypeId} {src : ServiceAddr}
    {tm : TopicMap} {e : TopicEntry}
    (h : alookup s.topics src = some tm) (h2 : alookup tm T = some e)
    (hne : ¬e.actualTy = T) :
    (s.subscribe T src).live = false ∧ (s.subscribe T src).logged = true
      ∧ (s.subscribe T src).next = { s with nextSid := s.nextSid + 1 } := by
  unfold BusInner.subscribe
  simp [h, h2, hne]

/-- A paused bus blocks every publish in the wait loop before any
recipient lookup: nothing is computed, sent, dropped or panicked. -/
theorem publish_paused {s : BusInner} (h : s.paused = true)
    (T : TypeId) (src : ServiceAddr) : s.publish T src = .blocked := by
  unfold BusInner.publish
  simp [h]

theorem exactSenders_set_paused (s : BusInner) (b : Bool) (T : TypeId)
    (src : ServiceAddr) :
    exactSenders { s with paused := b } T src = exactSenders s T src := rfl

theorem patternSenders_set_paused (s : BusInner) (b : Bool) (T : TypeId)
    (src : ServiceAddr) :
    patternSenders { s with paused := b } T src = patternSenders s T src := rfl

/-- The pause flag has no influence on what the publish body sends: the
trace after clearing the flag equals the trace the body would have
produced with the flag untouched — no publication is lost to a pause. -/
theorem publishBody_trace_pause_irrel (s : BusInner) (b : Bool) (T : TypeId)
    (src : ServiceAddr) :
    traceOf (publishBody { s with paused := b } T src)
      = traceOf (publishBody s T src) := by
  unfold publishBody
  rw [exactSenders_set_paused, patternSenders_set_paused]
  cases h : patternSenders s T src with
  | none => rfl
  | some sp =>
    simp only []
    split
    · rfl
    · split
      · rfl
      · rfl

/-- After `resume`, a publish proceeds with exactly the sends the body
mandates for the current subscriber lists. -/
theorem publish_after_resume (s : BusInner) (T : TypeId) (src : ServiceAddr) :
    traceOf ((s.resume).1.publish T src) = traceOf (publishBody s T src) := by
  have h1 : (s.resume).1.publish T src = publishBody { s with paused := false } T src := by
    unfold BusInner.resume BusInner.publish
    simp
  rw [h1, publishBody_trace_pause_irrel]

end Microbus

namespace Microbus

/-- When every configured kind has a registered factory, the spawn loop
spawns one task per component, marks the app started and returns `Ok` —
regardless of whether any factory's build later succeeds. -/
theorem startLoop_all_known (reg : List FactoryM) :
    ∀ (comps : List ComponentCfgM) (s : AppM),
    (∀ cc ∈ comps, (findFactory reg cc.kind).isSome) →
    (startLoop reg s comps).2 = .ok
      ∧ (startLoop reg s comps).1.started = true
      ∧ (startLoop reg s comps).1.shutdownSent = s.shutdownSent
      ∧ (startLoop reg s comps).1.tasks = s.tasks ++ comps.map (fun cc => cc.id) := by
  intro comps
  induction comps with
  | nil => intro s _; simp [startLoop]
  | cons cc rest ih =>
    intro s hall
    have hcc : (findFactory reg cc.kind).isSome := hall cc (List.mem_cons_self _ _)
    obtain ⟨f, hf⟩ := Option.isSome_iff_exists.1 hcc
    have hrest : ∀ c ∈ rest, (findFactory reg c.kind).isSome :=
      fun c hc => hall c (List.mem_cons_of_mem _ hc)
    have hstep : startLoop reg s (cc :: rest)
        = startLoop reg { s with compCfgTxs := s.compCfgTxs ++ [(cc.id, s.initCfgJson.getD cc.params)], tasks := s.tasks ++ [cc.id] } rest := by
      simp [startLoop, hf]
    obtain ⟨h1, h2, h3, h4⟩ := ih { s with compCfgTxs := s.compCfgTxs ++ [(cc.id, s.initCfgJson.getD cc.params)], tasks := s.tasks ++ [cc.id] } hrest
    rw [hstep]
    refine ⟨h1, h2, h3, ?_⟩
    rw [h4]
    simp

/-- The spawn loop inspects a factory only for its presence by name; its
build behavior is irrelevant to `start`'s control flow. -/
theorem startLoop_names_congr {reg reg' : List FactoryM}
    (hsame : ∀ k, (findFactory reg k = none ↔ findFactory reg' k = none)) :
    ∀ (comps : List ComponentCfgM) (s : AppM),
    startLoop reg s comps = startLoop reg' s comps := by
  intro comps
  induction comps with
  | nil => intro s; rfl
  | cons cc rest ih =>
    intro s
    cases h : findFactory reg cc.kind with
    | none =>
      have h' : findFactory reg' cc.kind = none := (hsame cc.kind).1 h
      simp [startLoop, h, h']
    | some f =>
      cases h' : findFactory reg' cc.kind with
      | none =>
        have : findFactory reg cc.kind = none := (hsame cc.kind).2 h'
        rw [this] at h
        exact absurd h (by simp)
      | some f' =>
        simp only [startLoop, h, h']
        exact ih _

theorem findFactory_none_iff (reg : List FactoryM) (k : String) :
    findFactory reg k = none ↔ ¬∃ f ∈ reg, f.typeName = k := by
  unfold findFactory
  rw [List.find?_eq_none]
  constructor
  · intro h hex
    obtain ⟨f, hf, he⟩ := hex
    exact absurd (decide_eq_true he) (by simpa using h f hf)
  · intro h f hf
    by_contra hcon
    simp at hcon
    exact h ⟨f, hf, hcon⟩

/-- Two registries with the same factory names drive `App::start` to the
same result: the build outcomes of the factories cannot influence it. -/
theorem start_names_congr {reg reg' : List FactoryM}
    (hnames : reg.map (fun f => f.typeName) = reg'.map (fun f => f.typeName))
    (s : AppM) : AppM.start reg s = AppM.start reg' s := by
  have hmem : ∀ k, (∃ f ∈ reg, f.typeName = k) ↔ (∃ f ∈ reg', f.typeName = k) := by
    intro k
    constructor
    · intro ⟨f, hf, he⟩
      have : k ∈ reg'.map (fun f => f.typeName) := by
        rw [← hnames]
        exact List.mem_map.2 ⟨f, hf, he⟩
      obtain ⟨g, hg, hge⟩ := List.mem_map.1 this
      exact ⟨g, hg, hge⟩
    · intro ⟨f, hf, he⟩
      have : k ∈ reg.map (fun f => f.typeName) := by
        rw [hnames]
        exact List.mem_map.2 ⟨f, hf, he⟩
      obtain ⟨g, hg, hge⟩ := List.mem_map.1 this
      exact ⟨g, hg, hge⟩
  have hsame : ∀ k, (findFactory reg k = none ↔ findFactory reg' k = none) := by
    intro k
    rw [findFactory_none_iff, findFactory_none_iff]
    exact not_congr (hmem k)
  have hdef : defaultComponents reg = defaultComponents reg' := by
    unfold defaultComponents
    have h1 : reg.map (fun f => (⟨f.typeName ++ "-1", f.typeName, none⟩ : ComponentCfgM))
        = (reg.map (fun f => f.typeName)).map
            (fun n => (⟨n ++ "-1", n, none⟩ : ComponentCfgM)) :=
      by rw [List.map_map]; rfl
    have h2 : reg'.map (fun f => (⟨f.typeName ++ "-1", f.typeName, none⟩ : ComponentCfgM))
        = (reg'.map (fun f => f.typeName)).map
            (fun n => (⟨n ++ "-1", n, none⟩ : ComponentCfgM)) :=
      by rw [List.map_map]; rfl
    rw [h1, h2, hnames]
  unfold AppM.start
  by_cases hstarted : s.started
  · simp [hstarted]
  · simp only [hstarted, if_false, Bool.false_eq_true]
    rw [hdef]
    exact startLoop_names_congr hsame _ _

/-- At runtime (`started = true`), `App::config` pauses the bus,
overwrites every component's config channel with the new value, sleeps
briefly and resumes: a hot configuration update. -/
theorem appConfig_runtime {s : AppM} (h : s.started = true) (v : JsonVal) :
    (s.config v).1.compCfgTxs = s.compCfgTxs.map (fun q => (q.1, v))
      ∧ (s.config v).2
        = [.pausedBus] ++ s.compCfgTxs.map (fun q => .sentTo q.1)
            ++ [.sleptBriefly, .resumedBus]
      ∧ ∀ q ∈ (s.config v).1.compCfgTxs, q.2 = v := by
  unfold AppM.config
  have hcond : (!s.started) = false := by rw [h]; rfl
  rw [hcond]
  simp only [Bool.false_eq_true, if_false]
  refine ⟨trivial, trivial, ?_⟩
  intro q hq
  obtain ⟨p, _, rfl⟩ := List.mem_map.1 hq
  rfl

/-- Before start, `App::config` only records the initial config value;
no channel is touched and no bus pause happens. -/
theorem appConfig_prestart {s : AppM} (h : s.started = false) (v : JsonVal) :
    (s.config v).1 = { s with initCfgJson := some v } ∧ (s.config v).2 = [] := by
  unfold AppM.config
  simp [h]

end Microbus

namespace Microbus
namespace Adapter

theorem pubCount_map_erased (ts : List TypeId) :
    pubCount (ts.map AdapterEvent.publishErased) = ts.length := by
  induction ts with
  | nil => rfl
  | cons a l ih =>
    simp only [List.map_cons, pubCount, List.countP_cons] at ih ⊢
    rw [ih]
    rfl

/-- The generated adapter publishes exactly what the spec's shape table
mandates, at every call site (`abort_on_error` value): in particular, at
most one publication for every shape except `VecErased`, and exactly `n`
for a `VecErased` of length `n`. -/
theorem adapter_pubCount (ab : Bool) (rc : RetCase) (v : RVal)
    {evs : List AdapterEvent} (h : genRetCase ab rc v = some evs) :
    pubCount evs = specMandatedCount rc v := by
  cases ab <;> cases rc <;> cases v <;>
    simp only [genRetCase, Option.some.injEq] at h <;>
    first
      | exact Option.noConfusion h
      | (subst h
         first
           | rfl
           | exact pubCount_map_erased _)

theorem specMandated_le_one {rc : RetCase} (hne : rc ≠ RetCase.VecErased)
    (v : RVal) : specMandatedCount rc v ≤ 1 := by
  cases rc <;>
    first
      | exact absurd rfl hne
      | (cases v <;> simp [specMandatedCount])

/-- The dedicated stop-hook adapter also matches the table. -/
theorem stop_pubCount (rc : RetCase) (v : RVal) {evs : List AdapterEvent}
    (h : stopRetCase rc v = some evs) :
    pubCount evs = specMandatedCount rc v := by
  cases rc <;> cases v <;>
    simp only [stopRetCase, Option.some.injEq] at h <;>
    first
      | exact Option.noConfusion h
      | (subst h
         rfl)

/-- With `abort_on_error` (the init call site), an `Err` return logs at
error level, marks the startup barrier failed and exits the component
with the error. -/
theorem genRetCase_err_abort (rc : RetCase) {evs : List AdapterEvent}
    (h : genRetCase true rc .vErr = some evs) :
    evs = [.logError, .markBarrierFailed, .returnErr] := by
  cases rc <;> simp_all [genRetCase, errArm]

/-- Without `abort_on_error` (handle and active call sites), an `Err`
return only logs a warning: no barrier marking, no early return. -/
theorem genRetCase_err_continue (rc : RetCase) {evs : List AdapterEvent}
    (h : genRetCase false rc .vErr = some evs) : evs = [.logWarn] := by
  cases rc <;> simp_all [genRetCase, errArm]

/-- The stop hook's `Err` arm also only logs a warning. -/
theorem stopRetCase_err (rc : RetCase) {evs : List AdapterEvent}
    (h : stopRetCase rc .vErr = some evs) : evs = [.logWarn] := by
  cases rc <;> simp_all [stopRetCase]

/-- A handler worker that receives a message never breaks out of its loop,
whatever the handler returned — in particular not on an `Err`. -/
theorem handleWorkerStep_continues (rc : RetCase) (v : RVal) :
    handleWorkerStep false rc (some v)
      = .continueLoop ((genRetCase false rc v).getD [])
    ∧ handleWorkerStep false rc (some v) ≠ .breakLoop := by
  refine ⟨rfl, ?_⟩
  simp [handleWorkerStep]

end Adapter
end Microbus


namespace Microbus
namespace Run

theorem idxsOf_ge (k : ActiveKind) :
    ∀ (acts : List ActiveKind) (n i : Nat), i ∈ idxsOf k acts n → n ≤ i := by
  intro acts
  induction acts with
  | nil => intro n i h; simp [idxsOf] at h
  | cons a rest ih =>
    intro n i h
    by_cases ha : a = k
    · simp only [idxsOf, ha, if_true] at h
      rcases List.mem_cons.1 h with h' | h'
      · omega
      · have := ih (n + 1) i h'
        omega
    · simp only [idxsOf, ha, if_false] at h
      have := ih (n + 1) i h
      omega

theorem idxsOf_count (k : ActiveKind) :
    ∀ (acts : List ActiveKind) (n j : Nat),
    (idxsOf k acts n).count (n + j) = if acts.get? j = some k then 1 else 0 := by
  intro acts
  induction acts with
  | nil => intro n j; simp [idxsOf, List.get?]
  | cons a rest ih =>
    intro n j
    by_cases ha : a = k
    · subst ha
      simp only [idxsOf, if_true]
      cases j with
      | zero =>
        have hz : List.count n (idxsOf a rest (n + 1)) = 0 := by
          refine List.count_eq_zero.2 ?_
          intro hmem
          have := idxsOf_ge a rest (n + 1) n hmem
          omega
        simp [List.count_cons, hz, List.get?]
      | succ j' =>
        have hih := ih (n + 1) j'
        have harith : n + 1 + j' = n + (j' + 1) := by omega
        rw [harith] at hih
        have hne : ¬(n + (j' + 1) = n) := by omega
        simp [List.count_cons, hih, List.get?, hne]
    · simp only [idxsOf, ha, if_false]
      cases j with
      | zero =>
        have hz : List.count n (idxsOf k rest (n + 1)) = 0 := by
          refine List.count_eq_zero.2 ?_
          intro hmem
          have := idxsOf_ge k rest (n + 1) n hmem
          omega
        simp [hz, List.get?, ha]
      | succ j' =>
        have hih := ih (n + 1) j'
        have harith : n + 1 + j' = n + (j' + 1) := by omega
        rw [harith] at hih
        simp [hih, List.get?]

theorem count_map_ctor {f : Nat → Phase} (hf : ∀ a b, f a = f b → a = b)
    (l : List Nat) (i : Nat) : (l.map f).count (f i) = l.count i := by
  induction l with
  | nil => rfl
  | cons a rest ih =>
    by_cases hia : i = a
    · subst hia
      simp [List.count_cons, ih]
    · have hfne : ¬(f i = f a) := fun he => hia (hf _ _ he)
      simp [List.count_cons, ih, hia, hfne]

theorem pairwise_rank_append (c : Nat) (l₁ l₂ : List Phase)
    (h₁ : ∀ p ∈ l₁, phaseRank p ≤ c) (h₂ : ∀ p ∈ l₂, c ≤ phaseRank p)
    (hp₁ : l₁.Pairwise (fun p q => phaseRank p ≤ phaseRank q))
    (hp₂ : l₂.Pairwise (fun p q => phaseRank p ≤ phaseRank q)) :
    (l₁ ++ l₂).Pairwise (fun p q => phaseRank p ≤ phaseRank q) :=
  List.pairwise_append.2 ⟨hp₁, hp₂, fun x hx y hy => le_trans (h₁ x hx) (h₂ y hy)⟩

theorem pairwise_rank_const {l : List Phase} {c : Nat}
    (h : ∀ p ∈ l, phaseRank p = c) :
    l.Pairwise (fun p q => phaseRank p ≤ phaseRank q) := by
  induction l with
  | nil => exact List.Pairwise.nil
  | cons a rest ih =>
    refine List.Pairwise.cons ?_ (ih fun p hp => h p (List.mem_cons_of_mem _ hp))
    intro q hq
    rw [h a (List.mem_cons_self _ _), h q (List.mem_cons_of_mem _ hq)]

theorem rank_of_mem_map_ctor (f : Nat → Phase) (c : Nat)
    (hf : ∀ i, phaseRank (f i) = c) (l : List Nat) :
    ∀ p ∈ l.map f, phaseRank p = c := by
  intro p hp
  obtain ⟨i, _, rfl⟩ := List.mem_map.1 hp
  exact hf i

/-- The generated `run` body's phases appear in non-decreasing lifecycle
rank: every init precedes every subscription declaration, which precede
the barrier arrival, which precedes every once-active call, which precede
all worker spawns, which precede the stop wait, which precedes every
stop-hook call. -/
theorem runSequence_ordered (nInits nHandles nStops : Nat) (acts : List ActiveKind) :
    (runSequence nInits nHandles nStops acts).Pairwise
      (fun p q => phaseRank p ≤ phaseRank q) := by
  set A := (List.range nInits).map Phase.initCall with hA
  set B := (List.range nHandles).map Phase.subscribeDecl with hB
  set C := (idxsOf .onceKind acts 0).map Phase.onceCall with hC
  set D := (List.range nHandles).map Phase.spawnHandleWorker with hD
  set E := (idxsOf .loopKind acts 0).map Phase.spawnLoopWorker with hE
  set F := (List.range nStops).map Phase.stopCall with hF
  have b0 : ∀ p ∈ A, phaseRank p = 0 :=
    rank_of_mem_map_ctor Phase.initCall 0 (fun _ => rfl) _
  have b1 : ∀ p ∈ B, phaseRank p = 1 :=
    rank_of_mem_map_ctor Phase.subscribeDecl 1 (fun _ => rfl) _
  have b3 : ∀ p ∈ C, phaseRank p = 3 :=
    rank_of_mem_map_ctor Phase.onceCall 3 (fun _ => rfl) _
  have b4 : ∀ p ∈ D, phaseRank p = 4 :=
    rank_of_mem_map_ctor Phase.spawnHandleWorker 4 (fun _ => rfl) _
  have b5 : ∀ p ∈ E, phaseRank p = 5 :=
    rank_of_mem_map_ctor Phase.spawnLoopWorker 5 (fun _ => rfl) _
  have b7 : ∀ p ∈ F, phaseRank p = 7 :=
    rank_of_mem_map_ctor Phase.stopCall 7 (fun _ => rfl) _
  have s9L : ∀ p ∈ [Phase.exitOk], 7 ≤ phaseRank p := by
    intro p hp
    simp at hp
    subst hp
    simp [phaseRank]
  have s8P := pairwise_rank_append 7 F [Phase.exitOk]
    (fun p hp => le_of_eq (b7 p hp)) s9L (pairwise_rank_const b7)
    (List.pairwise_singleton _ _)
  have s8L : ∀ p ∈ F ++ [Phase.exitOk], 6 ≤ phaseRank p := by
    intro p hp
    rcases List.mem_append.1 hp with h | h
    · rw [b7 p h]; omega
    · have := s9L p h; omega
  have s7P := pairwise_rank_append 6 [Phase.waitStop] (F ++ [Phase.exitOk])
    (fun p hp => by simp at hp; subst hp; simp [phaseRank]) s8L
    (List.pairwise_singleton _ _) s8P
  have s7L : ∀ p ∈ [Phase.waitStop] ++ (F ++ [Phase.exitOk]), 5 ≤ phaseRank p := by
    intro p hp
    rcases List.mem_append.1 hp with h | h
    · simp at h; subst h; simp [phaseRank]
    · have := s8L p h; omega
  have s6P := pairwise_rank_append 5 E ([Phase.waitStop] ++ (F ++ [Phase.exitOk]))
    (fun p hp => le_of_eq (b5 p hp)) s7L (pairwise_rank_const b5) s7P
  have s6L : ∀ p ∈ E ++ ([Phase.waitStop] ++ (F ++ [Phase.exitOk])), 4 ≤ phaseRank p := by
    intro p hp
    rcases List.mem_append.1 hp with h | h
    · rw [b5 p h]; omega
    · have := s7L p h; omega
  have s5P := pairwise_rank_append 4 D (E ++ ([Phase.waitStop] ++ (F ++ [Phase.exitOk])))
    (fun p hp => le_of_eq (b4 p hp)) s6L (pairwise_rank_const b4) s6P
  have s5L : ∀ p ∈ D ++ (E ++ ([Phase.waitStop] ++ (F ++ [Phase.exitOk]))),
      3 ≤ phaseRank p := by
    intro p hp
    rcases List.mem_append.1 hp with h | h
    · rw [b4 p h]; omega
    · have := s6L p h; omega
  have s4P := pairwise_rank_append 3 C
    (D ++ (E ++ ([Phase.waitStop] ++ (F ++ [Phase.exitOk]))))
    (fun p hp => le_of_eq (b3 p hp)) s5L (pairwise_rank_const b3) s5P
  have s4L : ∀ p ∈ C ++ (D ++ (E ++ ([Phase.waitStop] ++ (F ++ [Phase.exitOk])))),
      2 ≤ phaseRank p := by
    intro p hp
    rcases List.mem_append.1 hp with h | h
    · rw [b3 p h]; omega
    · have := s5L p h; omega
  have s3P := pairwise_rank_append 2 [Phase.arriveBarrier]
    (C ++ (D ++ (E ++ ([Phase.waitStop] ++ (F ++ [Phase.exitOk])))))
    (fun p hp => by simp at hp; subst hp; simp [phaseRank]) s4L
    (List.pairwise_singleton _ _) s4P
  have s3L : ∀ p ∈ [Phase.arriveBarrier]
      ++ (C ++ (D ++ (E ++ ([Phase.waitStop] ++ (F ++ [Phase.exitOk]))))),
      1 ≤ phaseRank p := by
    intro p hp
    rcases List.mem_append.1 hp with h | h
    · simp at h; subst h; simp [phaseRank]
    · have := s4L p h; omega
  have s2P := pairwise_rank_append 1 B
    ([Phase.arriveBarrier] ++ (C ++ (D ++ (E ++ ([Phase.waitStop] ++ (F ++ [Phase.exitOk]))))))
    (fun p hp => le_of_eq (b1 p hp)) s3L (pairwise_rank_const b1) s3P
  have s2L : ∀ p ∈ B ++ ([Phase.arriveBarrier]
      ++ (C ++ (D ++ (E ++ ([Phase.waitStop] ++ (F ++ [Phase.exitOk])))))),
      0 ≤ phaseRank p := fun p _ => Nat.zero_le _
  have s1P := pairwise_rank_append 0 A
    (B ++ ([Phase.arriveBarrier]
      ++ (C ++ (D ++ (E ++ ([Phase.waitStop] ++ (F ++ [Phase.exitOk])))))))
    (fun p hp => le_of_eq (b0 p hp)) s2L (pairwise_rank_const b0) s2P
  have hseq : runSequence nInits nHandles nStops acts
      = A ++ (B ++ ([Phase.arriveBarrier]
        ++ (C ++ (D ++ (E ++ ([Phase.waitStop] ++ (F ++ [Phase.exitOk]))))))) := by
    simp [runSequence, hA, hB, hC, hD, hE, hF]
  rw [hseq]
  exact s1P

end Run
end Microbus

namespace Microbus
namespace Run

theorem count_map_ne {f : Nat → Phase} {p : Phase} (h : ∀ i, f i ≠ p)
    (l : List Nat) : (l.map f).count p = 0 :=
  List.count_eq_zero.2 (fun hm => by
    obtain ⟨i, _, he⟩ := List.mem_map.1 hm
    exact h i he)

theorem count_blocks (p : Phase) (nI nH nS : Nat) (acts : List ActiveKind) :
    (runSequence nI nH nS acts).count p =
      ((List.range nI).map Phase.initCall).count p
      + ((List.range nH).map Phase.subscribeDecl).count p
      + ([Phase.arriveBarrier]).count p
      + ((idxsOf .onceKind acts 0).map Phase.onceCall).count p
      + ((List.range nH).map Phase.spawnHandleWorker).count p
      + ((idxsOf .loopKind acts 0).map Phase.spawnLoopWorker).count p
      + ([Phase.waitStop]).count p
      + ((List.range nS).map Phase.stopCall).count p
      + ([Phase.exitOk]).count p := by
  simp only [runSequence, List.count_append]

/-- Each position the actives list marks `Once` contributes exactly one
`onceCall` to the run sequence; every other position contributes none. -/
theorem runSequence_count_onceCall (nI nH nS : Nat) (acts : List ActiveKind) (i : Nat) :
    (runSequence nI nH nS acts).count (.onceCall i)
      = if acts.get? i = some .onceKind then 1 else 0 := by
  rw [count_blocks]
  have h1 : ((List.range nI).map Phase.initCall).count (.onceCall i) = 0 :=
    count_map_ne (fun j => by simp) _
  have h2 : ((List.range nH).map Phase.subscribeDecl).count (.onceCall i) = 0 :=
    count_map_ne (fun j => by simp) _
  have h3 : ([Phase.arriveBarrier]).count (.onceCall i) = 0 := by simp
  have h4 : ((List.range nH).map Phase.spawnHandleWorker).count (.onceCall i) = 0 :=
    count_map_ne (fun j => by simp) _
  have h5 : ((idxsOf .loopKind acts 0).map Phase.spawnLoopWorker).count (.onceCall i) = 0 :=
    count_map_ne (fun j => by simp) _
  have h6 : ([Phase.waitStop]).count (.onceCall i) = 0 := by simp
  have h7 : ((List.range nS).map Phase.stopCall).count (.onceCall i) = 0 :=
    count_map_ne (fun j => by simp) _
  have h8 : ([Phase.exitOk]).count (.onceCall i) = 0 := by simp
  have hmain : ((idxsOf .onceKind acts 0).map Phase.onceCall).count (.onceCall i)
      = (idxsOf .onceKind acts 0).count i :=
    count_map_ctor (fun a b h => by injection h) _ i
  have hidx := idxsOf_count .onceKind acts 0 i
  rw [Nat.zero_add] at hidx
  rw [h1, h2, h3, h4, h5, h6, h7, h8, hmain, hidx]
  omega

/-- Each position the actives list marks `Loop` contributes exactly one
loop-worker spawn; every other position contributes none. -/
theorem runSequence_count_spawnLoop (nI nH nS : Nat) (acts : List ActiveKind) (i : Nat) :
    (runSequence nI nH nS acts).count (.spawnLoopWorker i)
      = if acts.get? i = some .loopKind then 1 else 0 := by
  rw [count_blocks]
  have h1 : ((List.range nI).map Phase.initCall).count (.spawnLoopWorker i) = 0 :=
    count_map_ne (fun j => by simp) _
  have h2 : ((List.range nH).map Phase.subscribeDecl).count (.spawnLoopWorker i) = 0 :=
    count_map_ne (fun j => by simp) _
  have h3 : ([Phase.arriveBarrier]).count (.spawnLoopWorker i) = 0 := by simp
  have h4 : ((List.range nH).map Phase.spawnHandleWorker).count (.spawnLoopWorker i) = 0 :=
    count_map_ne (fun j => by simp) _
  have h5 : ((idxsOf .onceKind acts 0).map Phase.onceCall).count (.spawnLoopWorker i) = 0 :=
    count_map_ne (fun j => by simp) _
  have h6 : ([Phase.waitStop]).count (.spawnLoopWorker i) = 0 := by simp
  have h7 : ((List.range nS).map Phase.stopCall).count (.spawnLoopWorker i) = 0 :=
    count_map_ne (fun j => by simp) _
  have h8 : ([Phase.exitOk]).count (.spawnLoopWorker i) = 0 := by simp
  have hmain : ((idxsOf .loopKind acts 0).map Phase.spawnLoopWorker).count (.spawnLoopWorker i)
      = (idxsOf .loopKind acts 0).count i :=
    count_map_ctor (fun a b h => by injection h) _ i
  have hidx := idxsOf_count .loopKind acts 0 i
  rw [Nat.zero_add] at hidx
  rw [h1, h2, h3, h4, h5, h6, h7, h8, hmain, hidx]
  omega

/-- The barrier arrival appears exactly once in the run body. -/
theorem runSequence_count_barrier (nI nH nS : Nat) (acts : List ActiveKind) :
    (runSequence nI nH nS acts).count .arriveBarrier = 1 := by
  rw [count_blocks]
  have h1 : ((List.range nI).map Phase.initCall).count .arriveBarrier = 0 :=
    count_map_ne (fun j => by simp) _
  have h2 : ((List.range nH).map Phase.subscribeDecl).count .arriveBarrier = 0 :=
    count_map_ne (fun j => by simp) _
  have h4 : ((List.range nH).map Phase.spawnHandleWorker).count .arriveBarrier = 0 :=
    count_map_ne (fun j => by simp) _
  have h5 : ((idxsOf .onceKind acts 0).map Phase.onceCall).count .arriveBarrier = 0 :=
    count_map_ne (fun j => by simp) _
  have h5' : ((idxsOf .loopKind acts 0).map Phase.spawnLoopWorker).count .arriveBarrier = 0 :=
    count_map_ne (fun j => by simp) _
  have h7 : ((List.range nS).map Phase.stopCall).count .arriveBarrier = 0 :=
    count_map_ne (fun j => by simp) _
  rw [h1, h2, h4, h5, h5', h7]
  simp

/-- The stop wait appears exactly once in the run body. -/
theorem runSequence_count_waitStop (nI nH nS : Nat) (acts : List ActiveKind) :
    (runSequence nI nH nS acts).count .waitStop = 1 := by
  rw [count_blocks]
  have h1 : ((List.range nI).map Phase.initCall).count .waitStop = 0 :=
    count_map_ne (fun j => by simp) _
  have h2 : ((List.range nH).map Phase.subscribeDecl).count .waitStop = 0 :=
    count_map_ne (fun j => by simp) _
  have h4 : ((List.range nH).map Phase.spawnHandleWorker).count .waitStop = 0 :=
    count_map_ne (fun j => by simp) _
  have h5 : ((idxsOf .onceKind acts 0).map Phase.onceCall).count .waitStop = 0 :=
    count_map_ne (fun j => by simp) _
  have h5' : ((idxsOf .loopKind acts 0).map Phase.spawnLoopWorker).count .waitStop = 0 :=
    count_map_ne (fun j => by simp) _
  have h7 : ((List.range nS).map Phase.stopCall).count .waitStop = 0 :=
    count_map_ne (fun j => by simp) _
  rw [h1, h2, h4, h5, h5', h7]
  simp

/-- The generated run body never joins its worker tasks. -/
theorem runSequence_no_awaitWorkers (nI nH nS : Nat) (acts : List ActiveKind) :
    Phase.awaitWorkers ∉ runSequence nI nH nS acts := by
  intro h
  simp only [runSequence, List.mem_append, List.mem_map, List.mem_singleton] at h
  rcases h with ((((((((⟨i, _, hi⟩ | ⟨i, _, hi⟩) | hb) | ⟨i, _, hi⟩) | ⟨i, _, hi⟩) | ⟨i, _, hi⟩) | hw) | ⟨i, _, hi⟩) | he) <;>
    simp_all

end Run
end Microbus

/-! ## Claim theorems -/

namespace Microbus

/-- C1 counterexample: a subscriber that subscribed to `tickTy` under
address `addrA` receives nothing when the same message type is published
from address `addrB` — delivery depends on which component published,
so routing is not solely by payload type. -/
theorem C1_counterexample :
    sentSids (demoBus.publish tickTy addrB) = []
      ∧ sentSids (demoBus.publish tickTy addrA) = [1] := by
  decide

/-- C1 (amended): publications are routed by the pair (publisher service
address, payload type): in a well-typed unpaused bus, a publish of type
`T` from `src` delivers to exactly the open senders of the exact topic at
`(src, T)` followed by the open senders of the pattern subscriptions for
`T` whose pattern matches `src`. -/
theorem C1_routing_by_address_and_type {s : BusInner} (hw : wellTypedB s = true)
    (hp : s.paused = false) (T : TypeId) (src : ServiceAddr) :
    sentSids (s.publish T src) = (openRecipients s T src).map Sender.sid :=
  publish_sentSids hw hp T src

/-- Witness for C1's amended theorem at the concrete one-subscriber bus. -/
theorem C1_routing_witness :
    wellTypedB demoBus = true ∧ demoBus.paused = false
      ∧ sentSids (demoBus.publish tickTy addrA)
        = (openRecipients demoBus tickTy addrA).map Sender.sid :=
  ⟨by decide, rfl, C1_routing_by_address_and_type (by decide) rfl tickTy addrA⟩

/-- C2 counterexample: even after publish traffic, a subscribe is still
silently accepted — it returns a live subscription, logs nothing, and the
new sender is observed by the very next publish; there is no sealed
state after which subscribe fails loudly, and no frozen snapshot. -/
theorem C2_counterexample :
    (afterPublishBus.subscribe tickTy addrA).live = true
      ∧ (afterPublishBus.subscribe tickTy addrA).logged = false
      ∧ sentSids (((afterPublishBus.subscribe tickTy addrA).next).publish tickTy addrA)
        = [1, 2] := by
  decide

/-- C2 (amended): the bus has no sealed state: in any well-typed state —
at any point of the process lifetime — `subscribe` is silently accepted,
appends exactly one fresh open sender to the live list at `(from, T)`,
and the next unpaused publish of `T` from that address delivers to the
new subscriber (publish reads the live table, not a seal-time snapshot). -/
theorem C2_no_seal {s : BusInner} (hw : wellTypedB s = true)
    (T : TypeId) (src : ServiceAddr) :
    (s.subscribe T src).live = true
      ∧ (s.subscribe T src).logged = false
      ∧ (exactSenders (s.subscribe T src).next T src).1
          = some (((exactSenders s T src).1.getD []) ++ [⟨s.nextSid, false⟩])
      ∧ (s.paused = false →
          s.nextSid ∈ sentSids ((s.subscribe T src).next.publish T src)) := by
  obtain ⟨hl, hlog, _⟩ := subscribe_accepted hw T src
  refine ⟨hl, hlog, subscribe_appends hw T src, ?_⟩
  intro hp
  have hw' := wellTypedB_subscribe hw T src
  have hp' : (s.subscribe T src).next.paused = false := by
    rw [(subscribe_frame T src).2.1, hp]
  rw [publish_sentSids hw' hp' T src]
  unfold openRecipients
  rw [subscribe_appends hw T src]
  refine List.mem_map.2 ⟨⟨s.nextSid, false⟩, ?_, rfl⟩
  refine List.mem_append.2 (Or.inl ?_)
  refine List.mem_filter.2 ⟨?_, rfl⟩
  simp

/-- Witness for C2's amended theorem: subscribing on the concrete bus and
observing the fresh sender in the next publish. -/
theorem C2_no_seal_witness :
    wellTypedB demoBus = true ∧ demoBus.paused = false
      ∧ demoBus.nextSid ∈ sentSids ((demoBus.subscribe tickTy addrA).next.publish tickTy addrA) :=
  ⟨by decide, rfl, (C2_no_seal (by decide) tickTy addrA).2.2.2 rfl⟩

/-- C4 counterexample: with two open subscribers the publish trace is two
blocking sends (refcount cloned for the first, payload moved into the
last); it contains no non-blocking `try_send` at all, so there is no
pending list drained later — the claim's non-blocking first pass does not
exist in the code. -/
theorem C4_counterexample :
    demoBus2.publish tickTy addrA
      = .done [.blockingSend 1 .cloned, .blockingSend 2 .moved] demoBus2
      ∧ (traceOf (demoBus2.publish tickTy addrA)).all (fun e => !e.isTry) = true := by
  decide

/-- C4 (amended): publish performs a single pass of blocking sends over
the open recipients in order; the refcount is cloned for all but the last
and the payload is moved into the last send; closed senders never appear
in the trace; there is no non-blocking attempt and no pending list; the
publish completes with no observable error. -/
theorem C4_blocking_send_order (s : BusInner) (hw : wellTypedB s = true)
    (hp : s.paused = false) (T : TypeId) (src : ServiceAddr) :
    ∃ s', s.publish T src = .done (sendSeq (openRecipients s T src)) s'
      ∧ (∀ e ∈ sendSeq (openRecipients s T src), e.isTry = false)
      ∧ (∀ e ∈ sendSeq (openRecipients s T src),
          ∃ t ∈ openRecipients s T src, ∃ m, e = .blockingSend t.sid m)
      ∧ sendSeq (openRecipients s T src)
          = (openRecipients s T src).dropLast.map
              (fun t => SendEvent.blockingSend t.sid .cloned)
            ++ (match (openRecipients s T src).getLast? with
                | none => []
                | some last => [SendEvent.blockingSend last.sid .moved]) := by
  obtain ⟨s', h⟩ := publish_done hw hp T src
  refine ⟨s', h, sendSeq_no_try _, fun e he => sendSeq_mem_blockingSend he, ?_⟩
  cases hl : openRecipients s T src with
  | nil => simp [sendSeq]
  | cons a as =>
    have hgl : (a :: as).getLast? = some ((a :: as).getLast (by simp)) :=
      List.getLast?_eq_getLast _ (by simp)
    simp [sendSeq, hgl]

/-- Witness for C4's amended theorem at the two-subscriber bus. -/
theorem C4_blocking_send_witness :
    wellTypedB demoBus2 = true ∧ demoBus2.paused = false
      ∧ ∃ s', demoBus2.publish tickTy addrA
          = .done (sendSeq (openRecipients demoBus2 tickTy addrA)) s' := by
  refine ⟨by decide, rfl, ?_⟩
  obtain ⟨s', h, _, _, _⟩ := C4_blocking_send_order demoBus2 (by decide) rfl tickTy addrA
  exact ⟨s', h⟩

end Microbus

namespace Microbus

/-- C3 counterexample: with a registered factory whose build fails,
`App::start` still returns `Ok`, marks the app started and leaves one
spawned task running; no stop is triggered and no `StartFailed` exists —
the failure is only logged inside the component's own task. -/
theorem C3_counterexample :
    (AppM.start demoReg demoApp).2 = .ok
      ∧ (AppM.start demoReg demoApp).1.started = true
      ∧ (AppM.start demoReg demoApp).1.shutdownSent = false
      ∧ (AppM.start demoReg demoApp).1.tasks = ["Worker-1"]
      ∧ componentTask ⟨"Worker", false⟩ "Worker-1" = .buildFailureLogged "Worker-1" := by
  decide

/-- C3 (amended): `App::start` waits on no barrier: whenever every
configured component kind has a registered factory, it spawns the
component tasks, marks the app started and returns `Ok` immediately —
without triggering stop — and its result is entirely independent of any
factory's build outcome (registries that agree on factory names drive
`start` identically). -/
theorem C3_start_no_barrier (reg : List FactoryM) (s : AppM)
    (hs : s.started = false)
    (hall : ∀ cc ∈ (if s.components = [] then defaultComponents reg else s.components),
      (findFactory reg cc.kind).isSome) :
    (AppM.start reg s).2 = .ok
      ∧ (AppM.start reg s).1.started = true
      ∧ (AppM.start reg s).1.shutdownSent = s.shutdownSent
      ∧ ∀ reg', reg.map (fun f => f.typeName) = reg'.map (fun f => f.typeName) →
          AppM.start reg s = AppM.start reg' s := by
  have hstart : AppM.start reg s
      = startLoop reg
          { s with components := if s.components = [] then defaultComponents reg else s.components }
          (if s.components = [] then defaultComponents reg else s.components) := by
    unfold AppM.start
    simp [hs]
  obtain ⟨h1, h2, h3, _⟩ := startLoop_all_known reg
    (if s.components = [] then defaultComponents reg else s.components)
    { s with components := if s.components = [] then defaultComponents reg else s.components }
    hall
  refine ⟨?_, ?_, ?_, fun reg' hn => start_names_congr hn s⟩
  · rw [hstart]; exact h1
  · rw [hstart]; exact h2
  · rw [hstart]; exact h3

/-- Witness for C3's amended theorem at the failing-build registry. -/
theorem C3_start_witness :
    demoApp.started = false ∧ (AppM.start demoReg demoApp).2 = .ok :=
  ⟨rfl, (C3_start_no_barrier demoReg demoApp rfl (by decide)).1⟩

end Microbus

namespace Microbus
namespace Adapter

/-- C5: for every call site (both `abort_on_error` polarities of
`gen_ret_case_tokens` and the dedicated stop-hook match), the adapter's
publication count equals exactly what the spec's shape table mandates;
in particular it is at most one for every shape except `VecErased`, and
exactly `n` for a `VecErased` return of length `n`. -/
theorem C5_adapter_shape_table (ab : Bool) (rc : RetCase) (v : RVal)
    {evs : List AdapterEvent}
    (h : genRetCase ab rc v = some evs ∨ stopRetCase rc v = some evs) :
    pubCount evs = specMandatedCount rc v
      ∧ (rc ≠ .VecErased → pubCount evs ≤ 1) := by
  rcases h with h | h
  · have he := adapter_pubCount ab rc v h
    exact ⟨he, fun hne => he ▸ specMandated_le_one hne v⟩
  · have he := stop_pubCount rc v h
    exact ⟨he, fun hne => he ▸ specMandated_le_one hne v⟩

/-- Witness for C5 on a `VecErased` return of length three. -/
theorem C5_adapter_witness :
    genRetCase false RetCase.VecErased (RVal.vVecErased [3, 4, 5])
      = some [AdapterEvent.publishErased 3, AdapterEvent.publishErased 4,
          AdapterEvent.publishErased 5]
    ∧ pubCount [AdapterEvent.publishErased 3, AdapterEvent.publishErased 4,
          AdapterEvent.publishErased 5]
      = specMandatedCount RetCase.VecErased (RVal.vVecErased [3, 4, 5]) :=
  ⟨by decide,
   (C5_adapter_shape_table false RetCase.VecErased (RVal.vVecErased [3, 4, 5])
     (Or.inl (by decide))).1⟩

/-- C6: the error policy is asymmetric by call site exactly as generated:
init passes `abort_on_error = true` so an `Err` logs at error level, marks
the startup barrier failed and exits the component with the error; handle
and active pass `false` and the stop hook has its own warn-only arms, so
their `Err` is logged as a warning and swallowed; a handler worker never
breaks its receive loop because of a returned error. -/
theorem C6_error_asymmetry :
    abortOnErrorAt .initSite = true
      ∧ abortOnErrorAt .handleSite = false
      ∧ abortOnErrorAt .activeSite = false
      ∧ (∀ rc (evs : List AdapterEvent), genRetCase true rc .vErr = some evs →
          evs = [.logError, .markBarrierFailed, .returnErr])
      ∧ (∀ rc (evs : List AdapterEvent), genRetCase false rc .vErr = some evs →
          evs = [.logWarn])
      ∧ (∀ rc (evs : List AdapterEvent), stopRetCase rc .vErr = some evs →
          evs = [.logWarn])
      ∧ (∀ rc v, handleWorkerStep false rc (some v) ≠ .breakLoop) :=
  ⟨rfl, rfl, rfl,
   fun rc _ h => genRetCase_err_abort rc h,
   fun rc _ h => genRetCase_err_continue rc h,
   fun rc _ h => stopRetCase_err rc h,
   fun rc v => (handleWorkerStep_continues rc v).2⟩

/-- Witness for C6 at the `ResultUnit` shape: the init site aborts, the
handle site swallows. -/
theorem C6_error_asymmetry_witness :
    genRetCase true RetCase.ResultUnit RVal.vErr
      = some [AdapterEvent.logError, AdapterEvent.markBarrierFailed, AdapterEvent.returnErr]
    ∧ ([AdapterEvent.logError, AdapterEvent.markBarrierFailed, AdapterEvent.returnErr]
        : List AdapterEvent)
      = [AdapterEvent.logError, AdapterEvent.markBarrierFailed, AdapterEvent.returnErr]
    ∧ genRetCase false RetCase.ResultUnit RVal.vErr = some [AdapterEvent.logWarn]
    ∧ ([AdapterEvent.logWarn] : List AdapterEvent) = [AdapterEvent.logWarn] :=
  ⟨by decide,
   C6_error_asymmetry.2.2.2.1 RetCase.ResultUnit _ (by decide),
   by decide,
   C6_error_asymmetry.2.2.2.2.1 RetCase.ResultUnit _ (by decide)⟩

end Adapter
end Microbus

namespace Microbus
namespace Run

/-- C7: the generated `Component::run` body executes its phases in strict
order — inits, then subscription declarations, then the barrier arrival,
then each `Once` active exactly once (after the barrier, so peer
subscriptions are installed), then handler and loop-active worker spawns,
then the stop wait, then the stop hooks — and it never waits on its
workers. -/
theorem C7_lifecycle_order (nI nH nS : Nat) (acts : List ActiveKind) :
    (runSequence nI nH nS acts).Pairwise (fun p q => phaseRank p ≤ phaseRank q)
      ∧ (runSequence nI nH nS acts).count .arriveBarrier = 1
      ∧ (runSequence nI nH nS acts).count .waitStop = 1
      ∧ (∀ i, acts.get? i = some .onceKind →
          (runSequence nI nH nS acts).count (.onceCall i) = 1)
      ∧ (∀ i, acts.get? i = some .loopKind →
          (runSequence nI nH nS acts).count (.onceCall i) = 0
            ∧ (runSequence nI nH nS acts).count (.spawnLoopWorker i) = 1)
      ∧ Phase.awaitWorkers ∉ runSequence nI nH nS acts := by
  refine ⟨runSequence_ordered nI nH nS acts,
    runSequence_count_barrier nI nH nS acts,
    runSequence_count_waitStop nI nH nS acts, ?_, ?_,
    runSequence_no_awaitWorkers nI nH nS acts⟩
  · intro i hi
    rw [runSequence_count_onceCall, hi]
    simp
  · intro i hi
    constructor
    · rw [runSequence_count_onceCall, hi]
      simp
    · rw [runSequence_count_spawnLoop, hi]
      simp

/-- Witness for C7 at a component with one init, one handler, one stop
and one `Once` active. -/
theorem C7_lifecycle_witness :
    ([ActiveKind.onceKind] : List ActiveKind).get? 0 = some ActiveKind.onceKind
      ∧ (runSequence 1 1 1 [ActiveKind.onceKind]).count (.onceCall 0) = 1 :=
  ⟨rfl, (C7_lifecycle_order 1 1 1 [ActiveKind.onceKind]).2.2.2.1 0 rfl⟩

end Run
end Microbus

namespace Microbus

/-- C8 counterexample: on a started app a runtime `App::config(v)` call
does update configuration — it pauses the bus, overwrites the component's
config channel with the new value and resumes — so configuration is not
read-only after start. -/
theorem C8_counterexample :
    startedApp.started = true
      ∧ startedApp.compCfgTxs = [("c-1", some 0)]
      ∧ (startedApp.config (some 42)).1.compCfgTxs = [("c-1", some 42)]
      ∧ (startedApp.config (some 42)).2
        = [.pausedBus, .sentTo "c-1", .sleptBriefly, .resumedBus] := by
  decide

/-- C8 (amended): the frozen `ConfigStore` itself is a pure type-keyed
lookup with no mutation API, but the app does support runtime
configuration updates: before start `App::config` only records the
initial value, while after start it pauses the bus, broadcasts the new
value into every component's config channel and resumes. -/
theorem C8_config_hot_update :
    (∀ (m : List (TypeId × Nat)) (T : TypeId),
        (ConfigStore.fromFrozenMap m).get T = alookup m T)
      ∧ (∀ (s : AppM) (v : JsonVal), s.started = false →
          (s.config v).1 = { s with initCfgJson := some v } ∧ (s.config v).2 = [])
      ∧ (∀ (s : AppM) (v : JsonVal), s.started = true →
          (s.config v).1.compCfgTxs = s.compCfgTxs.map (fun q => (q.1, v))
            ∧ (∀ q ∈ (s.config v).1.compCfgTxs, q.2 = v)
            ∧ (s.config v).2
              = [.pausedBus] ++ s.compCfgTxs.map (fun q => CfgEvent.sentTo q.1)
                  ++ [.sleptBriefly, .resumedBus]) := by
  refine ⟨fun m T => rfl, fun s v h => appConfig_prestart h v, fun s v h => ?_⟩
  obtain ⟨h1, h2, h3⟩ := appConfig_runtime h v
  exact ⟨h1, h3, h2⟩

/-- Witness for C8's amended theorem at the concrete started app. -/
theorem C8_config_witness :
    startedApp.started = true
      ∧ (startedApp.config (some 42)).1.compCfgTxs
        = startedApp.compCfgTxs.map (fun q => (q.1, some 42)) :=
  ⟨rfl, (C8_config_hot_update.2.2 startedApp (some 42) rfl).1⟩

/-- C9 counterexample: a publish that hits an exact-topic box of the
wrong runtime type logs the mismatch and completes normally (skipping the
entry) — a logged-and-continue outcome, not an abort; the same mismatch in
`subscribe` hands back a dead subscription instead of aborting. -/
theorem C9_counterexample :
    mismatchBus.publish tickTy addrA = .done [.logTypeMismatch] mismatchBus
      ∧ (mismatchBus.subscribe tickTy addrA).live = false
      ∧ (mismatchBus.subscribe tickTy addrA).logged = true := by
  decide

/-- C9 (amended): the statically-typed publish path treats a runtime type
mismatch in the exact-topic box as logged-and-continue (the entry is
skipped), while a mismatch in the pattern list panics; a publish whose
type has no open subscriber returns silently with no sends; a mismatched
subscribe logs and returns a dead subscription. -/
theorem C9_mismatch_policy :
    (∀ (s : BusInner) (T : TypeId) (src : ServiceAddr) (sp : List Sender),
        s.paused = false → (exactSenders s T src).2 = true →
        patternSenders s T src = some sp →
        ∃ s', s.publish T src
          = .done (.logTypeMismatch :: sendSeq (sp.filter Sender.isOpen)) s')
      ∧ (∀ (s : BusInner) (T : TypeId) (src : ServiceAddr),
          s.paused = false → patternSenders s T src = none →
          s.publish T src = .panicked)
      ∧ (∀ (s : BusInner) (T : TypeId) (src : ServiceAddr),
          wellTypedB s = true → s.paused = false →
          openRecipients s T src = [] → sentSids (s.publish T src) = [])
      ∧ (∀ (s : BusInner) (T : TypeId) (src : ServiceAddr)
          (tm : TopicMap) (e : TopicEntry),
          alookup s.topics src = some tm → alookup tm T = some e →
          ¬e.actualTy = T →
          (s.subscribe T src).live = false ∧ (s.subscribe T src).logged = true) := by
  refine ⟨fun s T src sp hp hlog hsp => publish_exact_mismatch_continues hp hlog hsp,
    fun s T src hp h => publish_pattern_mismatch_panics hp h,
    fun s T src hw hp hempty => ?_,
    fun s T src tm e h h2 hne => ⟨(subscribe_mismatch h h2 hne).1, (subscribe_mismatch h h2 hne).2.1⟩⟩
  rw [publish_sentSids hw hp T src, hempty]
  rfl

/-- Witness for C9: the pattern-list mismatch panics on the concrete
mismatched bus, and the exact mismatch is logged-and-continue. -/
theorem C9_mismatch_witness :
    patternSenders patMismatchBus tickTy addrA = none
      ∧ patMismatchBus.publish tickTy addrA = .panicked
      ∧ (exactSenders mismatchBus tickTy addrA).2 = true
      ∧ ∃ s', mismatchBus.publish tickTy addrA
          = .done (.logTypeMismatch :: sendSeq ([].filter Sender.isOpen)) s' :=
  ⟨by decide,
   C9_mismatch_policy.2.1 patMismatchBus tickTy addrA rfl (by decide),
   by decide,
   C9_mismatch_policy.1 mismatchBus tickTy addrA [] rfl (by decide) (by decide)⟩

/-- C10: while the paused flag is set every publish blocks in the wait
loop before any recipient computation; `resume` clears the flag and
notifies all waiters; and the sends performed after a resume are exactly
those the publish body mandates for the current subscriber lists — no
publication is dropped because of a pause. -/
theorem C10_pause_resume (s : BusInner) (T : TypeId) (src : ServiceAddr) :
    (s.paused = true → s.publish T src = .blocked)
      ∧ (BusInner.pause s).paused = true
      ∧ (s.resume).1.paused = false
      ∧ (s.resume).2 = [.notifyWaiters]
      ∧ traceOf ((s.resume).1.publish T src) = traceOf (publishBody s T src) :=
  ⟨fun h => publish_paused h T src, rfl, rfl, rfl, publish_after_resume s T src⟩

/-- Witness for C10 at the concretely paused bus. -/
theorem C10_pause_witness :
    pausedDemoBus.paused = true
      ∧ pausedDemoBus.publish tickTy addrA = .blocked :=
  ⟨rfl, (C10_pause_resume pausedDemoBus tickTy addrA).1 rfl⟩

end Microbus
